import Mathlib

/-!
Verification of the RTCM3 decoder core (rtcm.c / rtcm3.c of this repository).

Conventions of the shallow embedding:
* Byte buffers are total functions `Nat → Nat`; each cell holds one byte
  (the C type is `unsigned char`; all writes in the source keep cells below 256).
* C `double` arithmetic is modelled over `ℚ`, reading decimal literals exactly.
  The power-of-two scale constants (`P2_43`, ...) are defined as exact powers of
  two, which is the value of the corresponding double constants.
* C `int` / `unsigned int` arithmetic is modelled on `Int` / `Nat` with explicit
  `% 2 ^ 32` where wraparound matters.  C integer division (truncation) is
  `Int.tdiv`; the `(int)` cast of a double is truncation toward zero.
* The host wall clock (`timeget`, an external interface of the core) is passed
  to the decoders as an explicit `now : GTime` parameter.
* The `trace`/`sprintf` logging calls of the source are no-ops and are omitted.
-/

/- ## 4.A Bit-field codec (getbitu / getbits, part_000 lines 295-307; setbitu, part_001 lines 122-130) -/

/-- Value of bit `i` of the buffer, MSB-first within each byte: this is the
C expression `(buff[i/8]>>(7-i%8))&1u` used by `getbitu` and `setbitu`. -/
def bitOf (buff : Nat → Nat) (i : Nat) : Nat :=
  (buff (i / 8) >>> (7 - i % 8)) &&& 1

/-- Loop of `getbitu`: `n` iterations of `bits=(bits<<1)+((buff[i/8]>>(7-i%8))&1u)`
with `bits` an `unsigned int` (the shift wraps modulo `2^32`). -/
def getbituGo (buff : Nat → Nat) (pos : Nat) : Nat → Nat
  | 0 => 0
  | n + 1 => 2 * getbituGo buff pos n % 2 ^ 32 + bitOf buff (pos + n)

/-- C `getbitu` (part_000 lines 295-301): extract `len` bits starting at bit
`pos`, MSB first.  The C source has no guard on `len`: the loop simply runs
`len` times (a non-positive C `len` runs zero times, as does `len = 0` here). -/
def getbitu (buff : Nat → Nat) (pos len : Nat) : Nat :=
  getbituGo buff pos len

/-- Reinterpretation of an `unsigned int` value as a C `int` (two's complement),
the `(int)bits` casts of `getbits`. -/
def toInt32 (n : Nat) : Int :=
  if n % 2 ^ 32 < 2 ^ 31 then ((n % 2 ^ 32 : Nat) : Int)
  else ((n % 2 ^ 32 : Nat) : Int) - 2 ^ 32

/-- C `getbits` (part_000 lines 302-307): read unsigned, then sign-extend from
bit `len-1` unless `len<=0||32<=len` or the top bit is clear. -/
def getbits (buff : Nat → Nat) (pos len : Nat) : Int :=
  let bits := getbitu buff pos len
  if len = 0 ∨ 32 ≤ len ∨ bits &&& (1 <<< (len - 1)) = 0 then toInt32 bits
  else toInt32 (bits ||| ((2 ^ 32 - 1) <<< len % 2 ^ 32))

/-- Store one bit: the C statement
`if (data&mask) buff[i/8]|=1u<<(7-i%8); else buff[i/8]&=~(1u<<(7-i%8));`. -/
def setBit1 (buff : Nat → Nat) (i : Nat) (b : Bool) : Nat → Nat :=
  fun k =>
    if k = i / 8 then
      if b then buff (i / 8) ||| 1 <<< (7 - i % 8)
      else buff (i / 8) &&& (2 ^ 32 - 1 - 1 <<< (7 - i % 8))
    else buff k

/-- Loop of `setbitu`: iteration `m` stores bit `len-1-m` of `data`
(the walking `mask=1u<<(len-1)`, shifted right each step) at bit `pos+m`. -/
def setbituGo (buff : Nat → Nat) (pos len data : Nat) : Nat → (Nat → Nat)
  | 0 => buff
  | m + 1 => setBit1 (setbituGo buff pos len data m) (pos + m) (data.testBit (len - 1 - m))

/-- C `setbitu` (part_001 lines 122-130): write the low `len` bits of `data`
at bit `pos`, MSB first; `len<=0||32<len` returns with the buffer unchanged. -/
def setbitu (buff : Nat → Nat) (pos len data : Nat) : Nat → Nat :=
  if len = 0 ∨ 32 < len then buff else setbituGo buff pos len data len

/-- The mathematical (no-wraparound) value of the `len`-bit big-endian field at
`pos`; used to describe what `getbitu` computes when `len` exceeds 32. -/
def getbituPure (buff : Nat → Nat) (pos : Nat) : Nat → Nat
  | 0 => 0
  | n + 1 => 2 * getbituPure buff pos n + bitOf buff (pos + n)

lemma bitOf_le_one (buff : Nat → Nat) (i : Nat) : bitOf buff i ≤ 1 :=
  Nat.and_le_right

lemma bitOf_eq_testBit (buff : Nat → Nat) (i : Nat) :
    bitOf buff i = if (buff (i / 8)).testBit (7 - i % 8) then 1 else 0 := by
  unfold bitOf
  rw [Nat.and_one_is_mod, Nat.shiftRight_eq_div_pow, Nat.testBit_to_div_mod]
  rcases Nat.mod_two_eq_zero_or_one (buff (i / 8) / 2 ^ (7 - i % 8)) with h | h <;>
    simp [h]

lemma mask_testBit : ∀ s < 8, ∀ t < 8,
    ((2 ^ 32 - 1 - 2 ^ s : Nat).testBit t) = decide (t ≠ s) := by decide

lemma bitOf_setBit1 (buff : Nat → Nat) (i : Nat) (b : Bool) (q : Nat) :
    bitOf (setBit1 buff i b) q = if q = i then (if b then 1 else 0) else bitOf buff q := by
  have hs : 7 - i % 8 < 8 := by omega
  have ht : 7 - q % 8 < 8 := by omega
  rw [bitOf_eq_testBit, bitOf_eq_testBit]
  simp only [setBit1]
  by_cases hb : q / 8 = i / 8
  · simp only [if_pos hb, hb, if_true]
    by_cases hq : q = i
    · subst hq
      rw [if_pos rfl]
      cases b
      · have hm : (buff (q / 8) &&& (2 ^ 32 - 1 - 1 <<< (7 - q % 8))).testBit (7 - q % 8)
            = false := by
          rw [Nat.one_shiftLeft, Nat.testBit_and, mask_testBit _ ht _ ht]
          simp
        simp only [Bool.false_eq_true, if_false, hm]
      · have hm : (buff (q / 8) ||| 1 <<< (7 - q % 8)).testBit (7 - q % 8) = true := by
          rw [Nat.one_shiftLeft, Nat.testBit_or, Nat.testBit_two_pow_self]
          simp
        simp only [if_true, hm]
    · rw [if_neg hq]
      have hne : 7 - q % 8 ≠ 7 - i % 8 := by
        have : q % 8 ≠ i % 8 := fun h => hq (by omega)
        omega
      cases b
      · have hm : (buff (i / 8) &&& (2 ^ 32 - 1 - 1 <<< (7 - i % 8))).testBit (7 - q % 8)
            = (buff (i / 8)).testBit (7 - q % 8) := by
          rw [Nat.one_shiftLeft, Nat.testBit_and, mask_testBit _ hs _ ht]
          simp [hne]
        simp only [Bool.false_eq_true, if_false, hm]
      · have hm : (buff (i / 8) ||| 1 <<< (7 - i % 8)).testBit (7 - q % 8)
            = (buff (i / 8)).testBit (7 - q % 8) := by
          rw [Nat.one_shiftLeft, Nat.testBit_or, Nat.testBit_two_pow_of_ne (Ne.symm hne)]
          simp
        simp only [if_true, hm]
  · have hq : q ≠ i := fun h => hb (by rw [h])
    simp only [if_neg hb, if_neg hq]

lemma bitOf_setbituGo (buff : Nat → Nat) (pos len data : Nat) :
    ∀ m q, bitOf (setbituGo buff pos len data m) q =
      if pos ≤ q ∧ q < pos + m then
        (if data.testBit (len - 1 - (q - pos)) then 1 else 0)
      else bitOf buff q := by
  intro m
  induction m with
  | zero =>
    intro q
    simp only [setbituGo]
    rw [if_neg (show ¬(pos ≤ q ∧ q < pos + 0) by omega)]
  | succ m ih =>
    intro q
    simp only [setbituGo]
    rw [bitOf_setBit1, ih]
    by_cases hq : q = pos + m
    · have h1 : pos ≤ q ∧ q < pos + (m + 1) := by omega
      have h2 : q - pos = m := by omega
      rw [if_pos hq, if_pos h1, h2]
    · rw [if_neg hq]
      by_cases hin : pos ≤ q ∧ q < pos + m
      · have h1 : pos ≤ q ∧ q < pos + (m + 1) := by omega
        rw [if_pos hin, if_pos h1]
      · have h1 : ¬(pos ≤ q ∧ q < pos + (m + 1)) := by omega
        rw [if_neg hin, if_neg h1]

lemma getbituPure_lt (buff : Nat → Nat) (pos : Nat) :
    ∀ n, getbituPure buff pos n < 2 ^ n := by
  intro n
  induction n with
  | zero => simp [getbituPure]
  | succ n ih =>
    have hb := bitOf_le_one buff (pos + n)
    simp only [getbituPure, pow_succ]
    omega

lemma mod_double_step (x b M : Nat) (hM : 2 ∣ M) (hM2 : 2 ≤ M) (hb : b ≤ 1) :
    2 * (x % M) % M + b = (2 * x + b) % M := by
  have hA : 2 * (x % M) % M = 2 * x % M := by
    conv_lhs => rw [Nat.mul_mod, Nat.mod_mod_of_dvd x (dvd_refl M), ← Nat.mul_mod]
  have hD : (2 : Nat) ∣ 2 * x % M := (Nat.dvd_mod_iff hM).2 ⟨x, rfl⟩
  have hC : 2 * x % M < M := Nat.mod_lt _ (by omega)
  have hB : (2 * x + b) % M = (2 * x % M + b) % M := by
    rw [Nat.add_mod, Nat.mod_eq_of_lt (show b < M by omega)]
  have hlt : 2 * x % M + b < M := by omega
  rw [hA, hB, Nat.mod_eq_of_lt hlt]

lemma getbituGo_eq_mod (buff : Nat → Nat) (pos : Nat) :
    ∀ n, getbituGo buff pos n = getbituPure buff pos n % 2 ^ 32 := by
  intro n
  induction n with
  | zero => rfl
  | succ n ih =>
    simp only [getbituGo, getbituPure, ih]
    exact mod_double_step _ _ _ ⟨2 ^ 31, by norm_num⟩ (by norm_num)
      (bitOf_le_one buff (pos + n))

lemma getbituGo_eq_pure (buff : Nat → Nat) (pos : Nat) {n : Nat} (h : n ≤ 32) :
    getbituGo buff pos n = getbituPure buff pos n := by
  rw [getbituGo_eq_mod]
  exact Nat.mod_eq_of_lt (lt_of_lt_of_le (getbituPure_lt buff pos n)
    (Nat.pow_le_pow_right (by norm_num) h))

lemma getbituPure_setbituGo (buff : Nat → Nat) (pos len data : Nat)
    (hlen : 1 ≤ len) :
    ∀ n, n ≤ len →
      getbituPure (setbituGo buff pos len data len) pos n =
        data >>> (len - n) % 2 ^ n := by
  intro n
  induction n with
  | zero =>
    intro hn
    simp [getbituPure, Nat.mod_one]
  | succ n ih =>
    intro hn
    have ihn := ih (by omega)
    simp only [getbituPure, ihn]
    rw [bitOf_setbituGo, if_pos (show pos ≤ pos + n ∧ pos + n < pos + len by omega)]
    have hq : pos + n - pos = n := by omega
    rw [hq]
    have hexp : len - 1 - n = len - (n + 1) := by omega
    rw [hexp]
    have hsplit : len - n = len - (n + 1) + 1 := by omega
    rw [hsplit, Nat.shiftRight_succ]
    have hpow : (2 : Nat) ^ (n + 1) = 2 * 2 ^ n := by ring
    rw [hpow]
    have hmm := @Nat.mod_mul 2 (2 ^ n) (data >>> (len - (n + 1)))
    rw [hmm]
    have htb : data.testBit (len - (n + 1))
        = decide (data >>> (len - (n + 1)) % 2 = 1) := by
      rw [Nat.testBit_to_div_mod, Nat.shiftRight_eq_div_pow]
    rw [htb]
    rcases Nat.mod_two_eq_zero_or_one (data >>> (len - (n + 1))) with h | h <;>
      rw [h] <;> simp <;> omega

lemma getbitu_setbitu (buff : Nat → Nat) (pos len data : Nat)
    (h1 : 1 ≤ len) (h2 : len ≤ 32) :
    getbitu (setbitu buff pos len data) pos len = data % 2 ^ len := by
  unfold setbitu
  rw [if_neg (by omega)]
  unfold getbitu
  rw [getbituGo_eq_pure _ _ h2,
    getbituPure_setbituGo buff pos len data h1 len (le_refl len)]
  simp

lemma toInt32_small {n : Nat} (h : n < 2 ^ 31) : toInt32 n = (n : Int) := by
  unfold toInt32
  have h32 : n < 2 ^ 32 := by omega
  rw [Nat.mod_eq_of_lt h32, if_pos h]

lemma or_disjoint_add {a b k : Nat} (hb : b < 2 ^ k) :
    (b ||| 2 ^ k * a) = 2 ^ k * a + b := by
  apply Nat.eq_of_testBit_eq
  intro i
  have hrhs : (2 ^ k * a + b).testBit i =
      if i < k then b.testBit i else a.testBit (i - k) :=
    Nat.testBit_mul_pow_two_add a hb i
  rw [Nat.testBit_or, hrhs]
  by_cases hi : i < k
  · rw [if_pos hi]
    have hfalse : (2 ^ k * a).testBit i = false := by
      have hsplitk : (2 : Nat) ^ k = 2 ^ (k - i) * 2 ^ i := by
        rw [← pow_add]
        congr 1
        omega
      rw [Nat.testBit_to_div_mod, hsplitk, mul_assoc, mul_comm (2 ^ i) a, ← mul_assoc,
        Nat.mul_div_cancel _ (Nat.two_pow_pos i)]
      have hdvd : (2 : Nat) ∣ 2 ^ (k - i) * a :=
        Dvd.dvd.mul_right (dvd_pow_self 2 (by omega)) a
      rcases Nat.mod_two_eq_zero_or_one (2 ^ (k - i) * a) with h | h
      · simp [h]
      · omega
    rw [hfalse, Bool.or_false]
  · rw [if_neg hi]
    have hbf : b.testBit i = false :=
      Nat.testBit_lt_two_pow (lt_of_lt_of_le hb
        (Nat.pow_le_pow_right (by norm_num) (by omega)))
    have h0 : (2 ^ k * a).testBit i = a.testBit (i - k) := by
      have h2 := Nat.testBit_mul_pow_two_add a (Nat.two_pow_pos k) i
      rw [Nat.add_zero] at h2
      rw [h2, if_neg hi]
    rw [hbf, h0, Bool.false_or]

lemma emod_of_neg {w M : Int} (hM : 0 < M) (h1 : -M ≤ w) (h2 : w < 0) :
    w % M = w + M := by
  have hself : (w + M) % M = w % M := by
    conv_lhs => rw [show w + M = w + M * 1 by ring]
    exact Int.add_mul_emod_self_left w M 1
  have hlt : (w + M) % M = w + M := Int.emod_eq_of_lt (by omega) (by omega)
  omega

/-- C5: round-trip of the bit-field codec.  Writing an unsigned `v < 2^len`
with `setbitu` at `(pos,len)`, `1 ≤ len ≤ 32`, and reading it back with
`getbitu` yields `v`; writing a signed `w ∈ [-2^(len-1), 2^(len-1))` (as its
unsigned two's-complement image, the C `(unsigned int)` conversion) and reading
back with `getbits` yields `w`. -/
theorem setbitu_getbitu_roundtrip (buff : Nat → Nat) (pos len : Nat) (v : Nat) (w : Int)
    (h1 : 1 ≤ len) (h2 : len ≤ 32) (hv : v < 2 ^ len)
    (hw1 : -(2 ^ (len - 1)) ≤ w) (hw2 : w < 2 ^ (len - 1)) :
    getbitu (setbitu buff pos len v) pos len = v ∧
    getbits (setbitu buff pos len (w % (2 ^ 32 : Int)).toNat) pos len = w := by
  constructor
  · rw [getbitu_setbitu buff pos len v h1 h2, Nat.mod_eq_of_lt hv]
  · set d : Nat := (w % (2 ^ 32 : Int)).toNat with hd
    have hbits : getbitu (setbitu buff pos len d) pos len = d % 2 ^ len :=
      getbitu_setbitu buff pos len d h1 h2
    have hdint : (d : Int) = w % (2 ^ 32 : Int) := by
      rw [hd, Int.toNat_of_nonneg (Int.emod_nonneg _ (by norm_num))]
    have hbint : ((d % 2 ^ len : Nat) : Int) = w % (2 ^ len : Int) := by
      push_cast
      rw [hdint]
      rw [Int.emod_emod_of_dvd w ⟨2 ^ (32 - len), by rw [← pow_add]; congr 1; omega⟩]
    have hblt : d % 2 ^ len < 2 ^ len := Nat.mod_lt _ (Nat.two_pow_pos len)
    have hpowle : (2 : Nat) ^ (len - 1) ≤ 2 ^ len :=
      Nat.pow_le_pow_right (by norm_num) (by omega)
    have hpow31 : (2 : Nat) ^ (len - 1) ≤ 2 ^ 31 :=
      Nat.pow_le_pow_right (by norm_num) (by omega)
    have hpowcast : ((2 ^ (len - 1) : Nat) : Int) = 2 ^ (len - 1) := by push_cast; ring
    have hpowcastl : ((2 ^ len : Nat) : Int) = 2 ^ len := by push_cast; ring
    unfold getbits
    rw [hbits]
    rcases eq_or_lt_of_le h2 with h32 | hlt32
    · -- len = 32
      subst h32
      have hw2' : w < 2 ^ 31 := by
        have h : ((2 : Int) ^ (32 - 1)) = 2 ^ 31 := by norm_num
        rw [h] at hw2
        exact hw2
      have hw1' : -(2 ^ 31) ≤ w := by
        have h : ((2 : Int) ^ (32 - 1)) = 2 ^ 31 := by norm_num
        rw [h] at hw1
        exact hw1
      rw [if_pos (Or.inr (Or.inl (le_refl 32)))]
      unfold toInt32
      rw [Nat.mod_eq_of_lt hblt]
      rcases le_or_lt 0 w with hpos | hneg
      · have hwe : w % (2 ^ 32 : Int) = w := Int.emod_eq_of_lt hpos
          (by have h : (2 : Int) ^ 31 < 2 ^ 32 := by norm_num
              omega)
        rw [hwe] at hbint
        have hcond : d % 2 ^ 32 < 2 ^ 31 := by
          have h : ((d % 2 ^ 32 : Nat) : Int) < ((2 ^ 31 : Nat) : Int) := by
            rw [hbint]
            push_cast
            exact hw2'
          exact_mod_cast h
        rw [if_pos hcond, hbint]
      · have hwe : w % (2 ^ 32 : Int) = w + 2 ^ 32 :=
          emod_of_neg (by norm_num)
            (by have h : (2 : Int) ^ 31 ≤ 2 ^ 32 := by norm_num
                omega) hneg
        rw [hwe] at hbint
        have hcondN : 2 ^ 31 ≤ d % 2 ^ 32 := by
          have h : ((2 ^ 31 : Nat) : Int) ≤ ((d % 2 ^ 32 : Nat) : Int) := by
            rw [hbint]
            push_cast
            have h2 : (2 : Int) ^ 32 = 2 ^ 31 * 2 := by norm_num
            omega
          exact_mod_cast h
        rw [if_neg (Nat.not_lt.mpr hcondN), hbint]
        ring
    · -- len < 32
      have hlen1 : len - 1 < 31 := by omega
      rcases le_or_lt 0 w with hpos | hneg
      · -- nonnegative value: top bit clear, plain unsigned read
        have hwe : w % (2 ^ len : Int) = w := Int.emod_eq_of_lt hpos
          (by rw [← hpowcastl]; rw [← hpowcast] at hw2; exact_mod_cast lt_of_lt_of_le hw2 (by exact_mod_cast hpowle))
        have hdm : ((d % 2 ^ len : Nat) : Int) = w := by rw [hbint, hwe]
        have hdmlt : d % 2 ^ len < 2 ^ (len - 1) := by
          have : ((d % 2 ^ len : Nat) : Int) < ((2 ^ (len - 1) : Nat) : Int) := by
            rw [hdm, hpowcast]; exact hw2
          exact_mod_cast this
        have htop : (d % 2 ^ len) &&& (1 <<< (len - 1)) = 0 := by
          rw [Nat.one_shiftLeft, Nat.and_two_pow, Nat.testBit_lt_two_pow hdmlt]
          simp
        rw [if_pos (Or.inr (Or.inr htop))]
        rw [toInt32_small (lt_of_lt_of_le hdmlt (by exact_mod_cast hpow31)), hdm]
      · -- negative value: top bit set, sign extension path
        have hwe : w % (2 ^ len : Int) = w + 2 ^ len := by
          apply emod_of_neg (by positivity) _ hneg
          have : (2 ^ (len - 1) : Int) ≤ 2 ^ len := by
            rw [← hpowcast, ← hpowcastl]; exact_mod_cast hpowle
          omega
        have hdm : ((d % 2 ^ len : Nat) : Int) = w + 2 ^ len := by rw [hbint, hwe]
        have hge : 2 ^ (len - 1) ≤ d % 2 ^ len := by
          have : ((2 ^ (len - 1) : Nat) : Int) ≤ ((d % 2 ^ len : Nat) : Int) := by
            rw [hdm, hpowcast]
            have hsplit : (2 : Int) ^ len = 2 ^ (len - 1) * 2 := by
              rw [← pow_succ]; congr 1; omega
            omega
          exact_mod_cast this
        have hdiv : d % 2 ^ len / 2 ^ (len - 1) = 1 := by
          apply Nat.div_eq_of_lt_le
          · simpa using hge
          · have hsplit : (2 : Nat) ^ len = 2 * 2 ^ (len - 1) := by
              rw [← pow_succ']; congr 1; omega
            omega
        have htop : (d % 2 ^ len) &&& (1 <<< (len - 1)) ≠ 0 := by
          rw [Nat.one_shiftLeft, Nat.and_two_pow, Nat.testBit_to_div_mod, hdiv]
          have h20 : (2 : Nat) ^ (len - 1) ≠ 0 := (Nat.two_pow_pos (len - 1)).ne'
          simpa using h20
        rw [if_neg (by push_neg; exact ⟨by omega, by omega, htop⟩)]
        -- the OR with ~0u<<len
        have hmask : (2 ^ 32 - 1) <<< len % 2 ^ 32 = 2 ^ 32 - 2 ^ len := by
          rw [Nat.shiftLeft_eq]
          have hAB : (2 : Nat) ^ len * 2 ^ 32 = 2 ^ 32 * 2 ^ len := mul_comm _ _
          have hA : (2 : Nat) ^ len ≤ 2 ^ 32 := Nat.pow_le_pow_right (by norm_num) (by omega)
          have hA1 : 1 ≤ (2 : Nat) ^ len := Nat.one_le_two_pow
          have hT : (2 : Nat) ^ 32 ≤ 2 ^ 32 * 2 ^ len := Nat.le_mul_of_pos_right _ (by omega)
          have e1 : (2 ^ 32 - 1) * 2 ^ len = (2 ^ 32 - 2 ^ len) + (2 ^ len - 1) * 2 ^ 32 := by
            rw [Nat.sub_mul, Nat.sub_mul, one_mul, one_mul, hAB]
            omega
          rw [e1, Nat.add_mul_mod_self_right, Nat.mod_eq_of_lt (by omega)]
        have hmask2 : 2 ^ 32 - 2 ^ len = 2 ^ len * (2 ^ (32 - len) - 1) := by
          rw [Nat.mul_sub, mul_one, ← pow_add]
          congr 2
          omega
        rw [hmask, hmask2, or_disjoint_add hblt]
        unfold toInt32
        have hval : 2 ^ len * (2 ^ (32 - len) - 1) + d % 2 ^ len = 2 ^ 32 - 2 ^ len + d % 2 ^ len := by
          rw [← hmask2]
        rw [hval]
        have hA : (2 : Nat) ^ len ≤ 2 ^ 32 := Nat.pow_le_pow_right (by norm_num) (by omega)
        have hlt : 2 ^ 32 - 2 ^ len + d % 2 ^ len < 2 ^ 32 := by omega
        rw [Nat.mod_eq_of_lt hlt]
        have hge31 : ¬(2 ^ 32 - 2 ^ len + d % 2 ^ len < 2 ^ 31) := by
          have hl31 : (2 : Nat) ^ len ≤ 2 ^ 31 := Nat.pow_le_pow_right (by norm_num) (by omega)
          have h32e : (2 : Nat) ^ 32 = 2 ^ 31 * 2 := by norm_num
          omega
        rw [if_neg hge31]
        have hc : ((2 ^ 32 - 2 ^ len + d % 2 ^ len : Nat) : Int) =
            2 ^ 32 - 2 ^ len + ((d % 2 ^ len : Nat) : Int) := by
          rw [Nat.cast_add, Nat.cast_sub hA]
          push_cast
          ring
        rw [hc, hdm]
        ring

/-- C5 witness: concrete round-trip at `pos = 5`, `len = 7`, `v = 100`, `w = -3`. -/
theorem setbitu_getbitu_roundtrip_witness :
    getbitu (setbitu (fun _ => 0) 5 7 100) 5 7 = 100 ∧
    getbits (setbitu (fun _ => 0) 5 7 ((-3 : Int) % (2 ^ 32 : Int)).toNat) 5 7 = -3 :=
  setbitu_getbitu_roundtrip (fun _ => 0) 5 7 100 (-3)
    (by norm_num) (by norm_num) (by norm_num) (by norm_num) (by norm_num)

/-- C8 (amended): behaviour of the readers for `len` outside `1..32`.  A
non-positive C `len` makes the extraction loop run zero times, so `len = 0`
yields 0 from `getbitu` and `getbits`; but for `len > 32` the source has no
guard: `getbitu` returns the low 32 bits of the `len`-bit big-endian field at
`pos` (it still reads all `len` requested bits), in general non-zero, and
`getbits` returns that value reinterpreted as a signed 32-bit integer. -/
theorem getbitu_out_of_range (buff : Nat → Nat) (pos len : Nat) (h : 32 < len) :
    getbitu buff pos 0 = 0 ∧ getbits buff pos 0 = 0 ∧
    getbitu buff pos len = getbituPure buff pos len % 2 ^ 32 ∧
    getbits buff pos len = toInt32 (getbitu buff pos len) := by
  refine ⟨rfl, ?_, getbituGo_eq_mod buff pos len, ?_⟩
  · unfold getbits
    simp [getbitu, getbituGo, toInt32]
  · unfold getbits
    rw [if_pos (Or.inr (Or.inl (by omega)))]

/-- C8 witness: the amended description evaluated at `len = 33` on a zero
buffer. -/
theorem getbitu_out_of_range_witness :
    getbitu (fun _ => 0) 0 33 = getbituPure (fun _ => 0) 0 33 % 2 ^ 32 :=
  (getbitu_out_of_range (fun _ => 0) 0 33 (by norm_num)).2.2.1

/-- C8 counterexample: on an all-ones buffer, `getbitu` with the out-of-range
length 33 returns `2^32 - 1`, not 0 as the claim states. -/
theorem getbitu_len33_not_zero :
    getbitu (fun _ => 255) 0 33 = 4294967295 ∧ getbitu (fun _ => 255) 0 33 ≠ 0 := by
  constructor <;> decide

/- ## Data model: control record (rtcm_t, modelled with the fields the claims
touch; the string/statistics fields written only for logging are omitted) -/

/-- C `gtime_t`: integer seconds (`time_t time`) plus fractional second
(`double sec`). -/
structure GTime where
  time : Int
  sec : ℚ
deriving DecidableEq

/-- C `eph_t` (GPS/GAL/QZS/BDS broadcast ephemeris record).  Field order and
meaning follow the struct; `tgd0`/`tgd1` are `tgd[0]`/`tgd[1]`. -/
structure Eph where
  sat : Int
  iode : Int
  iodc : Int
  sva : Int
  svh : Int
  week : Int
  code : Int
  flag : Int
  toe : GTime
  toc : GTime
  ttr : GTime
  A : ℚ
  e : ℚ
  i0 : ℚ
  OMG0 : ℚ
  omg : ℚ
  M0 : ℚ
  deln : ℚ
  OMGd : ℚ
  idot : ℚ
  crc : ℚ
  crs : ℚ
  cuc : ℚ
  cus : ℚ
  cic : ℚ
  cis : ℚ
  toes : ℚ
  fit : ℚ
  f0 : ℚ
  f1 : ℚ
  f2 : ℚ
  tgd0 : ℚ
  tgd1 : ℚ
deriving DecidableEq

/-- C `sta_t`, numeric fields (the antenna/receiver descriptor strings are not
touched by any formalised claim and are omitted from the model). -/
structure Sta where
  deltype : Int
  pos0 : ℚ
  pos1 : ℚ
  pos2 : ℚ
  del0 : ℚ
  del1 : ℚ
  del2 : ℚ
  hgt : ℚ
  itrf : Int
  antsetup : Int
deriving DecidableEq

/-- C `obsd_t`: one observation entry (per-frequency arrays as functions). -/
structure ObsD where
  time : GTime
  sat : Int
  P : Nat → ℚ
  L : Nat → ℚ
  D : Nat → ℚ
  SNR : Nat → Nat
  LLI : Nat → Nat
  code : Nat → Nat

/-- C `obs_t`: the sliding one-epoch observation buffer. -/
structure ObsBuf where
  n : Int
  data : Nat → ObsD

/-- C `rtcm_t`: the control record, restricted to the fields read or written by
the formalised functions (framing state, current time, station id/obs flag,
option string, station record, ephemeris table, observation buffer). -/
structure RtcmState where
  time : GTime
  buff : Nat → Nat
  nbyte : Nat
  len : Nat
  staid : Int
  obsflag : Int
  ephsat : Int
  opt : List Char
  nav : Nat → Eph
  obs : ObsBuf
  sta : Sta

def gtime0 : GTime := ⟨0, 0⟩

/-- The `eph0={0,-1,-1}` initial record of `init_rtcm` (part_001 line 142). -/
def eph0 : Eph :=
  ⟨0, -1, -1, 0, 0, 0, 0, 0, gtime0, gtime0, gtime0,
   0, 0, 0, 0, 0, 0, 0, 0, 0, 0, 0, 0, 0, 0, 0, 0, 0, 0, 0, 0, 0, 0⟩

def obsd0 : ObsD := ⟨gtime0, 0, fun _ => 0, fun _ => 0, fun _ => 0, fun _ => 0, fun _ => 0, fun _ => 0⟩

/-- The state produced by `init_rtcm` (part_001 lines 138-194), restricted to
the modelled fields: zero time, `staid=0`, `obsflag=0`, empty option string,
all-`eph0` ephemeris table, empty observation buffer, zero station record. -/
def init_rtcm : RtcmState :=
  ⟨gtime0, fun _ => 0, 0, 0, 0, 0, 0, [], fun _ => eph0, ⟨0, fun _ => obsd0⟩,
   ⟨0, 0, 0, 0, 0, 0, 0, 0, 0, 0⟩⟩

/- ## 4.B CRC-24Q (rtk_crc24q and its table, part_001 lines 63-113) -/

/-- Lookup table `tbl_CRC24Q` of part_001 lines 63-96. -/
def tbl_CRC24Q : List Nat := [
    0x000000, 0x864CFB, 0x8AD50D, 0x0C99F6, 0x93E6E1, 0x15AA1A, 0x1933EC, 0x9F7F17,
    0xA18139, 0x27CDC2, 0x2B5434, 0xAD18CF, 0x3267D8, 0xB42B23, 0xB8B2D5, 0x3EFE2E,
    0xC54E89, 0x430272, 0x4F9B84, 0xC9D77F, 0x56A868, 0xD0E493, 0xDC7D65, 0x5A319E,
    0x64CFB0, 0xE2834B, 0xEE1ABD, 0x685646, 0xF72951, 0x7165AA, 0x7DFC5C, 0xFBB0A7,
    0x0CD1E9, 0x8A9D12, 0x8604E4, 0x00481F, 0x9F3708, 0x197BF3, 0x15E205, 0x93AEFE,
    0xAD50D0, 0x2B1C2B, 0x2785DD, 0xA1C926, 0x3EB631, 0xB8FACA, 0xB4633C, 0x322FC7,
    0xC99F60, 0x4FD39B, 0x434A6D, 0xC50696, 0x5A7981, 0xDC357A, 0xD0AC8C, 0x56E077,
    0x681E59, 0xEE52A2, 0xE2CB54, 0x6487AF, 0xFBF8B8, 0x7DB443, 0x712DB5, 0xF7614E,
    0x19A3D2, 0x9FEF29, 0x9376DF, 0x153A24, 0x8A4533, 0x0C09C8, 0x00903E, 0x86DCC5,
    0xB822EB, 0x3E6E10, 0x32F7E6, 0xB4BB1D, 0x2BC40A, 0xAD88F1, 0xA11107, 0x275DFC,
    0xDCED5B, 0x5AA1A0, 0x563856, 0xD074AD, 0x4F0BBA, 0xC94741, 0xC5DEB7, 0x43924C,
    0x7D6C62, 0xFB2099, 0xF7B96F, 0x71F594, 0xEE8A83, 0x68C678, 0x645F8E, 0xE21375,
    0x15723B, 0x933EC0, 0x9FA736, 0x19EBCD, 0x8694DA, 0x00D821, 0x0C41D7, 0x8A0D2C,
    0xB4F302, 0x32BFF9, 0x3E260F, 0xB86AF4, 0x2715E3, 0xA15918, 0xADC0EE, 0x2B8C15,
    0xD03CB2, 0x567049, 0x5AE9BF, 0xDCA544, 0x43DA53, 0xC596A8, 0xC90F5E, 0x4F43A5,
    0x71BD8B, 0xF7F170, 0xFB6886, 0x7D247D, 0xE25B6A, 0x641791, 0x688E67, 0xEEC29C,
    0x3347A4, 0xB50B5F, 0xB992A9, 0x3FDE52, 0xA0A145, 0x26EDBE, 0x2A7448, 0xAC38B3,
    0x92C69D, 0x148A66, 0x181390, 0x9E5F6B, 0x01207C, 0x876C87, 0x8BF571, 0x0DB98A,
    0xF6092D, 0x7045D6, 0x7CDC20, 0xFA90DB, 0x65EFCC, 0xE3A337, 0xEF3AC1, 0x69763A,
    0x578814, 0xD1C4EF, 0xDD5D19, 0x5B11E2, 0xC46EF5, 0x42220E, 0x4EBBF8, 0xC8F703,
    0x3F964D, 0xB9DAB6, 0xB54340, 0x330FBB, 0xAC70AC, 0x2A3C57, 0x26A5A1, 0xA0E95A,
    0x9E1774, 0x185B8F, 0x14C279, 0x928E82, 0x0DF195, 0x8BBD6E, 0x872498, 0x016863,
    0xFAD8C4, 0x7C943F, 0x700DC9, 0xF64132, 0x693E25, 0xEF72DE, 0xE3EB28, 0x65A7D3,
    0x5B59FD, 0xDD1506, 0xD18CF0, 0x57C00B, 0xC8BF1C, 0x4EF3E7, 0x426A11, 0xC426EA,
    0x2AE476, 0xACA88D, 0xA0317B, 0x267D80, 0xB90297, 0x3F4E6C, 0x33D79A, 0xB59B61,
    0x8B654F, 0x0D29B4, 0x01B042, 0x87FCB9, 0x1883AE, 0x9ECF55, 0x9256A3, 0x141A58,
    0xEFAAFF, 0x69E604, 0x657FF2, 0xE33309, 0x7C4C1E, 0xFA00E5, 0xF69913, 0x70D5E8,
    0x4E2BC6, 0xC8673D, 0xC4FECB, 0x42B230, 0xDDCD27, 0x5B81DC, 0x57182A, 0xD154D1,
    0x26359F, 0xA07964, 0xACE092, 0x2AAC69, 0xB5D37E, 0x339F85, 0x3F0673, 0xB94A88,
    0x87B4A6, 0x01F85D, 0x0D61AB, 0x8B2D50, 0x145247, 0x921EBC, 0x9E874A, 0x18CBB1,
    0xE37B16, 0x6537ED, 0x69AE1B, 0xEFE2E0, 0x709DF7, 0xF6D10C, 0xFA48FA, 0x7C0401,
    0x42FA2F, 0xC4B6D4, 0xC82F22, 0x4E63D9, 0xD11CCE, 0x575035, 0x5BC9C3, 0xDD8538]

/-- C `rtk_crc24q` (part_001 lines 104-113):
`for (i=0;i<len;i++) crc=((crc<<8)&0xFFFFFF)^tbl_CRC24Q[(crc>>16)^buff[i]];`. -/
def rtk_crc24q (buff : Nat → Nat) (len : Nat) : Nat :=
  (List.range len).foldl
    (fun crc i => ((crc <<< 8) &&& 0xFFFFFF) ^^^ tbl_CRC24Q.getD ((crc >>> 16) ^^^ buff i) 0) 0

/- ## 4.E Stream framer (input_rtcm3, part_001 lines 329-354) -/

/-- Store one byte: `rtcm->buff[i]=data`. -/
def updByte (buff : Nat → Nat) (i data : Nat) : Nat → Nat :=
  fun k => if k = i then data else buff k

/-- C `input_rtcm3` (part_001 lines 329-354), parametric in the message
dispatcher `dec` (the source calls `decode_rtcm3`).  Consumes one byte:
synchronise on the 0xD3 preamble, read the 10-bit length into
`len = payload+3`, accumulate until `len+3` bytes, then reset `nbyte` and
return 0 on CRC-24Q mismatch or dispatch the frame on match. -/
def input_rtcm3 (dec : RtcmState → Int × RtcmState) (s : RtcmState) (data : Nat) :
    Int × RtcmState :=
  if s.nbyte = 0 then
    if data ≠ 0xD3 then (0, s)
    else (0, { s with buff := updByte s.buff 0 data, nbyte := 1 })
  else
    let buff2 := updByte s.buff s.nbyte data
    let nb2 := s.nbyte + 1
    let len2 := if nb2 = 3 then getbitu buff2 14 10 + 3 else s.len
    if nb2 < 3 ∨ nb2 < len2 + 3 then
      (0, { s with buff := buff2, nbyte := nb2, len := len2 })
    else
      let s2 := { s with buff := buff2, nbyte := 0, len := len2 }
      if rtk_crc24q buff2 len2 ≠ getbitu buff2 (len2 * 8) 24 then (0, s2)
      else dec s2

/-- C1: the framer's CRC gate.  When the incoming byte completes a frame
(`nbyte+1 = len+3` with the header already processed), the frame is handed to
the dispatcher `dec` if and only if the 24-bit trailer equals the CRC-24Q of
the first `len` = L+3 bytes; on mismatch the frame is discarded — the byte
counter is reset to 0, no decoder runs (the result does not depend on `dec`),
and the call returns 0. -/
theorem input_rtcm3_crc_gate (dec : RtcmState → Int × RtcmState) (s : RtcmState) (b : Nat)
    (h3 : 3 ≤ s.nbyte) (hfull : s.nbyte + 1 = s.len + 3) :
    (rtk_crc24q (updByte s.buff s.nbyte b) s.len ≠
        getbitu (updByte s.buff s.nbyte b) (s.len * 8) 24 →
      input_rtcm3 dec s b = (0, { s with buff := updByte s.buff s.nbyte b, nbyte := 0 })) ∧
    (rtk_crc24q (updByte s.buff s.nbyte b) s.len =
        getbitu (updByte s.buff s.nbyte b) (s.len * 8) 24 →
      input_rtcm3 dec s b = dec { s with buff := updByte s.buff s.nbyte b, nbyte := 0 }) := by
  have h0 : ¬(s.nbyte = 0) := by omega
  have hnb3 : ¬(s.nbyte + 1 = 3) := by omega
  constructor
  · intro hne
    unfold input_rtcm3
    rw [if_neg h0]
    simp only [if_neg hnb3]
    rw [if_neg (show ¬(s.nbyte + 1 < 3 ∨ s.nbyte + 1 < s.len + 3) by omega),
      if_pos hne]
  · intro heq
    unfold input_rtcm3
    rw [if_neg h0]
    simp only [if_neg hnb3]
    rw [if_neg (show ¬(s.nbyte + 1 < 3 ∨ s.nbyte + 1 < s.len + 3) by omega),
      if_neg (show ¬(rtk_crc24q (updByte s.buff s.nbyte b) s.len ≠
        getbitu (updByte s.buff s.nbyte b) (s.len * 8) 24) from not_not_intro heq)]

/-- A partially filled framer state: bytes `D3 00 00` (declared payload length
0, so `len = 3`) followed by two zero CRC bytes already stored, awaiting the
sixth byte. -/
def frameState : RtcmState :=
  { init_rtcm with
      buff := fun k => if k = 0 then 0xD3 else 0,
      nbyte := 5,
      len := 3 }

/-- C1 witness: feeding the sixth byte 0 to `frameState` completes a frame
whose trailer `00 00 00` does not match the CRC-24Q of `D3 00 00`, so the
framer returns 0 with the byte counter reset, for an arbitrary dispatcher. -/
theorem input_rtcm3_crc_gate_witness :
    input_rtcm3 (fun st => (99, st)) frameState 0 =
      (0, { frameState with buff := updByte frameState.buff 5 0, nbyte := 0 }) := by
  have h := input_rtcm3_crc_gate (fun st => (99, st)) frameState 0
    (by decide) (by decide)
  exact h.1 (by decide)

/- ## 4.L snratio (part_000 lines 814-817) -/

/-- C `snratio`:
`return (unsigned char)(snr<=0.0||255.5<=snr?0.0:snr*4.0+0.5);`.
The `double` value is converted to `unsigned char` by truncation toward zero;
for results at or above 256 that conversion is undefined behaviour in C and is
modelled here as reduction modulo 256 (the common machine behaviour).  Note the
guard compares `snr`, not `snr*4`, with 255.5. -/
def snratio (snr : ℚ) : Int :=
  if snr ≤ 0 ∨ (255.5 : ℚ) ≤ snr then 0 else ⌊snr * 4 + 0.5⌋ % 256

/-- C9 counterexample: at `snr = 300` (which is `≥ 63.875`), `snratio` returns
0, not the upper clip value 255 required by the claim. -/
theorem snratio_at_300_is_zero : snratio 300 = 0 ∧ snratio 300 ≠ 255 := by
  constructor <;> norm_num [snratio]

/-- C9 (amended): `snratio` equals `round(snr*4)` (half-up) only on the range
where the byte conversion stays in bounds (`0 < snr` and `snr*4+0.5 < 256`,
i.e. `snr < 63.875`); a non-positive input yields 0; and an input at or above
255.5 also yields 0 — not 255 — because the guard compares `snr` itself, not
`snr*4`, with 255.5 (inputs in `[63.875, 255.5)` overflow the byte
conversion). -/
theorem snratio_spec (snr : ℚ) :
    (snr ≤ 0 → snratio snr = 0) ∧
    ((255.5 : ℚ) ≤ snr → snratio snr = 0) ∧
    (0 < snr → snr * 4 + 0.5 < 256 → snratio snr = ⌊snr * 4 + 0.5⌋) := by
  refine ⟨fun h => by simp [snratio, h], fun h => by simp [snratio, h], fun h1 h2 => ?_⟩
  unfold snratio
  rw [if_neg (by push_neg; constructor <;> nlinarith)]
  have h0 : (0 : Int) ≤ ⌊snr * 4 + 0.5⌋ := Int.floor_nonneg.2 (by nlinarith)
  have h256 : ⌊snr * 4 + 0.5⌋ < 256 := Int.floor_lt.2 (by exact_mod_cast h2)
  exact Int.emod_eq_of_lt h0 h256

/-- C9 witness for the amended claim: `snratio 10 = 40`. -/
theorem snratio_spec_witness : snratio 10 = 40 := by
  have h := (snratio_spec 10).2.2 (by norm_num) (by norm_num)
  rw [h]
  norm_num [Int.floor_eq_iff]

/- ## Option string utilities (C `strstr` / `sscanf` as used by the decoders) -/

/-- C `strstr`: the suffix of `s` starting at the first occurrence of `pat`
(`none` when `pat` does not occur). -/
def findSub (pat : List Char) : List Char → Option (List Char)
  | [] => if pat = [] then some [] else none
  | c :: rest =>
    if pat.isPrefixOf (c :: rest) then some (c :: rest) else findSub pat rest

/-- Presence test `strstr(opt,pat) != NULL`. -/
def hasOpt (pat opt : List Char) : Bool :=
  (findSub pat opt).isSome

/-- Digits read by `%d` after skipping none: `none` when the first character is
not a digit (then `sscanf` returns 0). -/
def parseNatDigits (l : List Char) : Option Nat :=
  let ds := l.takeWhile Char.isDigit
  if ds = [] then none
  else some (ds.foldl (fun a c => 10 * a + (c.toNat - 48)) 0)

/-- C `sscanf(p,"%d",&id)` on the remainder of the option string: skip
whitespace, optional sign, at least one digit. -/
def parseCInt (l : List Char) : Option Int :=
  let l1 := l.dropWhile (fun c => c = ' ' || c = '\t' || c = '\n')
  match l1 with
  | '-' :: rest => (parseNatDigits rest).map (fun n => -(n : Int))
  | '+' :: rest => (parseNatDigits rest).map (fun n => (n : Int))
  | _ => (parseNatDigits l1).map (fun n => (n : Int))

def optSTA : List Char := ['-', 'S', 'T', 'A', '=']

def optEPHALL : List Char := ['-', 'E', 'P', 'H', 'A', 'L', 'L']

/-- The `-STA=nnn` option of `test_staid`:
`(p=strstr(rtcm->opt,"-STA="))&&sscanf(p,"-STA=%d",&id)==1`. -/
def staOptId (opt : List Char) : Option Int :=
  match findSub optSTA opt with
  | none => none
  | some p => parseCInt (p.drop 5)

/- ## 4.G test_staid (part_000 lines 840-862) -/

/-- C `test_staid`: reject when a `-STA=nnn` option names a different station;
record the id when none is recorded yet or the previous batch was terminated
(`obsflag`); on a mid-batch mismatch reset the stored id to 0 and fail. -/
def test_staid (s : RtcmState) (staid : Int) : Bool × RtcmState :=
  let optFail : Bool :=
    match staOptId s.opt with
    | some id => decide (staid ≠ id)
    | none => false
  if optFail then (false, s)
  else if s.staid = 0 ∨ s.obsflag ≠ 0 then (true, { s with staid := staid })
  else if staid ≠ s.staid then (false, { s with staid := 0 })
  else (true, s)

/- ## Satellite registry (satno, part_000 lines 469-496).
The numeric constants below come from `rtklib.h`, which is not part of the
source tree; they are modelled from the spec (§4.D: exhaustive system set with
contiguous PRN ranges, blocks ordered GPS, GLO, GAL, QZS, CMP, LEO, SBS) with
the standard RTKLIB values. -/

def SYS_NONE : Int := 0
def SYS_GPS : Int := 1
def SYS_SBS : Int := 2
def SYS_GLO : Int := 4
def SYS_GAL : Int := 8
def SYS_QZS : Int := 16
def SYS_CMP : Int := 32
def SYS_LEO : Int := 64

def MINPRNGPS : Int := 1
def MAXPRNGPS : Int := 32
def NSATGPS : Int := 32
def MINPRNGLO : Int := 1
def MAXPRNGLO : Int := 27
def NSATGLO : Int := 27
def MINPRNGAL : Int := 1
def MAXPRNGAL : Int := 36
def NSATGAL : Int := 36
def MINPRNQZS : Int := 193
def MAXPRNQZS : Int := 202
def NSATQZS : Int := 10
def MINPRNCMP : Int := 1
def MAXPRNCMP : Int := 35
def NSATCMP : Int := 35
def MINPRNLEO : Int := 1
def MAXPRNLEO : Int := 10
def NSATLEO : Int := 10
def MINPRNSBS : Int := 120
def MAXPRNSBS : Int := 142
def NSATSBS : Int := 23

/-- C `satno` (part_000 lines 469-496): system + PRN to opaque satellite
number, 0 on an out-of-range PRN. -/
def satno (sys prn : Int) : Int :=
  if prn ≤ 0 then 0
  else if sys = SYS_GPS then
    (if prn < MINPRNGPS ∨ MAXPRNGPS < prn then 0 else prn - MINPRNGPS + 1)
  else if sys = SYS_GLO then
    (if prn < MINPRNGLO ∨ MAXPRNGLO < prn then 0 else NSATGPS + prn - MINPRNGLO + 1)
  else if sys = SYS_GAL then
    (if prn < MINPRNGAL ∨ MAXPRNGAL < prn then 0
     else NSATGPS + NSATGLO + prn - MINPRNGAL + 1)
  else if sys = SYS_QZS then
    (if prn < MINPRNQZS ∨ MAXPRNQZS < prn then 0
     else NSATGPS + NSATGLO + NSATGAL + prn - MINPRNQZS + 1)
  else if sys = SYS_CMP then
    (if prn < MINPRNCMP ∨ MAXPRNCMP < prn then 0
     else NSATGPS + NSATGLO + NSATGAL + NSATQZS + prn - MINPRNCMP + 1)
  else if sys = SYS_LEO then
    (if prn < MINPRNLEO ∨ MAXPRNLEO < prn then 0
     else NSATGPS + NSATGLO + NSATGAL + NSATQZS + NSATCMP + prn - MINPRNLEO + 1)
  else if sys = SYS_SBS then
    (if prn < MINPRNSBS ∨ MAXPRNSBS < prn then 0
     else NSATGPS + NSATGLO + NSATGAL + NSATQZS + NSATCMP + NSATLEO + prn - MINPRNSBS + 1)
  else 0

/- ## 4.C GNSS time utilities (part_000 lines 322-579, 750-796) -/

/-- Truncation toward zero, the C `(int)` cast of a double. -/
def ctrunc (q : ℚ) : Int :=
  if 0 ≤ q then ⌊q⌋ else ⌈q⌉

/-- C `epoch2time` (part_000 lines 328-342). -/
def epoch2time (y mo d hh mi : Int) (ss : ℚ) : GTime :=
  if y < 1970 ∨ 2099 < y ∨ mo < 1 ∨ 12 < mo then ⟨0, 0⟩
  else
    let doy : List Int := [1, 32, 60, 91, 121, 152, 182, 213, 244, 274, 305, 335]
    let days := (y - 1970) * 365 + (y - 1969).tdiv 4 + doy.getD (mo - 1).toNat 0 + d - 2 +
      (if y.tmod 4 = 0 ∧ 3 ≤ mo then 1 else 0)
    let sec := ⌊ss⌋
    ⟨days * 86400 + hh * 3600 + mi * 60 + sec, ss - sec⟩

/-- C `timeadd` (part_000 lines 374-380). -/
def timeadd (t : GTime) (sec : ℚ) : GTime :=
  let s2 := t.sec + sec
  ⟨t.time + ⌊s2⌋, s2 - ⌊s2⌋⟩

/-- C `timediff` (part_000 lines 364-367). -/
def timediff (t1 t2 : GTime) : ℚ :=
  ((t1.time - t2.time : Int) : ℚ) + t1.sec - t2.sec

/-- One row of the `leaps` table (part_000 lines 106-126): calendar epoch of
the leap second and the `utc-gpst` offset. -/
structure Leap where
  y : Int
  mo : Int
  d : Int
  off : ℚ

/-- The 18 active rows of the `leaps` table (the `{0}` row terminates the C
loop and is the end of this list). -/
def leaps : List Leap :=
  [⟨2017, 1, 1, -18⟩, ⟨2015, 7, 1, -17⟩, ⟨2012, 7, 1, -16⟩, ⟨2009, 1, 1, -15⟩,
   ⟨2006, 1, 1, -14⟩, ⟨1999, 1, 1, -13⟩, ⟨1997, 7, 1, -12⟩, ⟨1996, 1, 1, -11⟩,
   ⟨1994, 7, 1, -10⟩, ⟨1993, 7, 1, -9⟩, ⟨1992, 7, 1, -8⟩, ⟨1991, 1, 1, -7⟩,
   ⟨1990, 1, 1, -6⟩, ⟨1988, 1, 1, -5⟩, ⟨1985, 7, 1, -4⟩, ⟨1983, 7, 1, -3⟩,
   ⟨1982, 7, 1, -2⟩, ⟨1981, 7, 1, -1⟩]

/-- Loop of C `utc2gpst` (part_000 lines 387-395). -/
def utc2gpstGo (t : GTime) : List Leap → GTime
  | [] => t
  | e :: rest =>
    if 0 ≤ timediff t (epoch2time e.y e.mo e.d 0 0 0) then timeadd t (-e.off)
    else utc2gpstGo t rest

def utc2gpst (t : GTime) : GTime :=
  utc2gpstGo t leaps

/-- Loop of C `gpst2utc` (part_000 lines 529-539). -/
def gpst2utcGo (t : GTime) : List Leap → GTime
  | [] => t
  | e :: rest =>
    if 0 ≤ timediff (timeadd t e.off) (epoch2time e.y e.mo e.d 0 0 0) then timeadd t e.off
    else gpst2utcGo t rest

def gpst2utc (t : GTime) : GTime :=
  gpst2utcGo t leaps

/-- `epoch2time(gpst0)`, the GPS time origin 1980-01-06. -/
def gpst0time : GTime :=
  epoch2time 1980 1 6 0 0 0

/-- C `time2gpst` (part_000 lines 350-358): `(tow, week)`. -/
def time2gpst (t : GTime) : ℚ × Int :=
  let sec : Int := t.time - gpst0time.time
  let w : Int := sec.tdiv (86400 * 7)
  (((sec - w * (86400 * 7) : Int) : ℚ) + t.sec, w)

/-- C `gpst2time` (part_000 lines 423-431). -/
def gpst2time (week : Int) (sec : ℚ) : GTime :=
  let sec2 := if sec < -1000000000 ∨ 1000000000 < sec then 0 else sec
  ⟨gpst0time.time + 86400 * 7 * week + ctrunc sec2, sec2 - (ctrunc sec2 : Int)⟩

/-- C `fmod` (truncated remainder) on rationals. -/
def qfmod (x y : ℚ) : ℚ :=
  x - y * (ctrunc (x / y) : Int)

/-- C `adjweek` (part_000 lines 761-772): resolve the half-week ambiguity of a
TOW against the buffered epoch (falling back to the host clock `now` when no
epoch is buffered) and store the result in `rtcm->time`. -/
def adjweek (now : GTime) (s : RtcmState) (tow : ℚ) : RtcmState :=
  let t := if s.time.time = 0 then utc2gpst now else s.time
  let tp := time2gpst t
  let tow2 :=
    if tow < tp.1 - 302400 then tow + 604800
    else if tow > tp.1 + 302400 then tow - 604800 else tow
  { s with time := gpst2time tp.2 tow2 }

/-- C `adjgpsweek` (part_000 lines 545-551): anchor a 10-bit week number to
the 1024-week era of the host clock `now` (minimum week 1560). -/
def adjgpsweek (now : GTime) (week : Int) : Int :=
  let w := (time2gpst (utc2gpst now)).2
  let w2 := if w < 1560 then 1560 else w
  week + (w2 - week + 512).tdiv 1024 * 1024

/-- C `adjday_glot` (part_000 lines 782-796): resolve the half-day ambiguity
of a GLONASS TOD (Moscow time, 3h ahead of UTC) and store the result. -/
def adjday_glot (now : GTime) (s : RtcmState) (tod : ℚ) : RtcmState :=
  let t0 := if s.time.time = 0 then utc2gpst now else s.time
  let time1 := timeadd (gpst2utc t0) 10800
  let tp := time2gpst time1
  let tod_p := qfmod tp.1 86400
  let tow2 := tp.1 - tod_p
  let tod2 :=
    if tod < tod_p - 43200 then tod + 86400
    else if tod > tod_p + 43200 then tod - 86400 else tod
  { s with time := utc2gpst (timeadd (gpst2time tp.2 (tow2 + tod2)) (-10800)) }

/- ## 4.G decode_head1001 (part_000 lines 864-896) -/

/-- C `decode_head1001`: read station id, TOW, sync flag and satellite count
from a 1001-1004 header; fail with -1 on a short frame or a station-id test
failure, otherwise adjust the epoch and return the satellite count.  Result is
`(ret, sync, state)`. -/
def decode_head1001 (now : GTime) (s : RtcmState) : Int × Nat × RtcmState :=
  if 36 + 52 ≤ s.len * 8 then
    let staid := (getbitu s.buff 36 12 : Int)
    let tow := (getbitu s.buff 48 30 : ℚ) * (0.001 : ℚ)
    let sync := getbitu s.buff 78 1
    let nsat := getbitu s.buff 79 5
    let r := test_staid s staid
    if r.1 then ((nsat : Int), sync, adjweek now r.2 tow)
    else (-1, sync, r.2)
  else (-1, 0, s)

/-- A control record that has recorded station id 5 within a non-terminated
batch, with the option string `-STA=5` active. -/
def staTestState : RtcmState :=
  { init_rtcm with staid := 5, opt := ['-', 'S', 'T', 'A', '=', '5'] }

/-- C4 counterexample: with `-STA=5` in the options, a frame carrying station
id 6 while id 5 is recorded mid-batch is rejected by the option test, which
returns before the consistency test — so the stored id stays 5 instead of
being reset to 0 as the claim states. -/
theorem test_staid_sta_option_no_reset :
    test_staid staTestState 6 = (false, staTestState) ∧
    staTestState.staid = 5 ∧ staTestState.obsflag = 0 ∧
    (test_staid staTestState 6).2.staid ≠ 0 :=
  ⟨rfl, rfl, rfl, by decide⟩

/-- C4 (amended): station-id consistency in the absence of a `-STA=` option.
If an id is recorded (`staid ≠ 0`) and the batch is not terminated
(`obsflag = 0`), a differing id fails the test and resets the stored id to 0,
and `decode_head1001` then rejects the frame with -1, leaving everything but
the stored id (in particular the observation buffer) unchanged; a matching id,
or any id when none is recorded or the batch was terminated, passes and is
recorded.  (With a `-STA=` option a mismatching frame is rejected by the
option test instead, without resetting the stored id.) -/
theorem test_staid_consistency (s : RtcmState) (staid : Int) (now : GTime)
    (hopt : staOptId s.opt = none) :
    (s.staid ≠ 0 → s.obsflag = 0 → staid ≠ s.staid →
      test_staid s staid = (false, { s with staid := 0 })) ∧
    (s.staid = 0 ∨ s.obsflag ≠ 0 →
      test_staid s staid = (true, { s with staid := staid })) ∧
    (s.staid ≠ 0 → s.obsflag = 0 → staid = s.staid →
      test_staid s staid = (true, s)) ∧
    (s.staid ≠ 0 → s.obsflag = 0 → (getbitu s.buff 36 12 : Int) ≠ s.staid →
      36 + 52 ≤ s.len * 8 →
      decode_head1001 now s = (-1, getbitu s.buff 78 1, { s with staid := 0 })) := by
  have hof : (match staOptId s.opt with
      | some id => decide (staid ≠ id)
      | none => false) = false := by rw [hopt]
  refine ⟨fun h1 h2 h3 => ?_, fun h => ?_, fun h1 h2 h3 => ?_, fun h1 h2 h3 h4 => ?_⟩
  · unfold test_staid
    simp only [hof, Bool.false_eq_true, if_false]
    rw [if_neg (by push_neg; exact ⟨h1, h2⟩), if_pos h3]
  · unfold test_staid
    simp only [hof, Bool.false_eq_true, if_false]
    rw [if_pos h]
  · unfold test_staid
    simp only [hof, Bool.false_eq_true, if_false]
    rw [if_neg (by push_neg; exact ⟨h1, h2⟩), if_neg (not_not_intro h3)]
  · have hofr : (match staOptId s.opt with
        | some id => decide ((getbitu s.buff 36 12 : Int) ≠ id)
        | none => false) = false := by rw [hopt]
    unfold decode_head1001
    rw [if_pos h4]
    have hts : test_staid s (getbitu s.buff 36 12 : Int) = (false, { s with staid := 0 }) := by
      unfold test_staid
      simp only [hofr, Bool.false_eq_true, if_false]
      rw [if_neg (by push_neg; exact ⟨h1, h2⟩), if_pos h3]
    simp only [hts, Bool.false_eq_true, if_false]

/-- A control record with id 5 recorded mid-batch, no options, and a buffered
frame whose 12-bit station-id field reads 6. -/
def staMismatchState : RtcmState :=
  { init_rtcm with staid := 5, len := 11, buff := fun k => if k = 5 then 6 else 0 }

/-- C4 witness: the mismatching frame is rejected with -1 and the stored id is
reset to 0. -/
theorem test_staid_consistency_witness :
    decode_head1001 gtime0 staMismatchState =
      (-1, getbitu staMismatchState.buff 78 1, { staMismatchState with staid := 0 }) :=
  (test_staid_consistency staMismatchState 6 gtime0 rfl).2.2.2
    (by decide) rfl (by decide) (by decide)

/- ## 4.K decode_msm_head (part_000 lines 2392-2469) -/

/-- C `msm_h_t`: MSM header contents. -/
structure MsmH where
  nsat : Nat
  nsig : Nat
  sats : List Nat
  sigs : List Nat
  cellmask : List Nat
  time_s : Nat
  clk_str : Nat
  clk_ext : Nat
  smooth : Nat
  tint_s : Nat
deriving DecidableEq

def msmH0 : MsmH := ⟨0, 0, [], [], [], 0, 0, 0, 0, 0⟩

/-- Result bundle of `decode_msm_head`: the return value plus the `*sync`,
`*iod`, `*h`, `*hsize` outputs and the mutated control record. -/
structure MsmRes where
  ret : Int
  sync : Nat
  iod : Nat
  h : MsmH
  hsize : Nat
  state : RtcmState

/-- Satellites selected by the 64-bit mask (bits 97..160), ids 1..64 in mask
order: the loop `for (j=1;j<=64;j++) { if (mask) h->sats[h->nsat++]=j; }`. -/
def msmSats (buff : Nat → Nat) : List Nat :=
  (List.range 64).filterMap
    (fun j => if getbitu buff (97 + j) 1 ≠ 0 then some (j + 1) else none)

/-- Signals selected by the 32-bit mask (bits 161..192), ids 1..32. -/
def msmSigs (buff : Nat → Nat) : List Nat :=
  (List.range 32).filterMap
    (fun j => if getbitu buff (161 + j) 1 ≠ 0 then some (j + 1) else none)

/-- C `decode_msm_head`: read the common MSM header (GLO uses day-of-week +
TOD, BDS converts its TOW by +14 s, others plain TOW), test the station id,
reject when `nsat*nsig > 64` or the cell mask would overrun the frame, else
read the `nsat*nsig`-bit cell mask and return `ncell`, the number of set
bits. -/
def decode_msm_head (now : GTime) (s : RtcmState) (sys : Int) : MsmRes :=
  if 36 + 157 ≤ s.len * 8 then
    let s0 :=
      if sys = SYS_GLO then adjday_glot now s ((getbitu s.buff 51 27 : ℚ) * 0.001)
      else if sys = SYS_CMP then adjweek now s ((getbitu s.buff 48 30 : ℚ) * 0.001 + 14)
      else adjweek now s ((getbitu s.buff 48 30 : ℚ) * 0.001)
    let sync := getbitu s.buff 78 1
    let iod := getbitu s.buff 79 3
    let sats := msmSats s.buff
    let sigs := msmSigs s.buff
    let h0 : MsmH := ⟨sats.length, sigs.length, sats, sigs, [],
      getbitu s.buff 82 7, getbitu s.buff 89 2, getbitu s.buff 91 2,
      getbitu s.buff 93 1, getbitu s.buff 94 3⟩
    let r := test_staid s0 (getbitu s.buff 36 12 : Int)
    if r.1 = false then ⟨-1, sync, iod, h0, 0, r.2⟩
    else if 64 < sats.length * sigs.length then ⟨-1, sync, iod, h0, 0, r.2⟩
    else if s.len * 8 < 193 + sats.length * sigs.length then ⟨-1, sync, iod, h0, 0, r.2⟩
    else
      let cm := (List.range (sats.length * sigs.length)).map
        (fun j => getbitu s.buff (193 + j) 1)
      ⟨((cm.filter (fun x => x ≠ 0)).length : Int), sync, iod,
        { h0 with cellmask := cm }, 193 + sats.length * sigs.length, r.2⟩
  else ⟨-1, 0, 0, msmH0, 0, s⟩

lemma test_staid_obs (s : RtcmState) (staid : Int) :
    (test_staid s staid).2.obs = s.obs := by
  simp only [test_staid]
  split_ifs <;> rfl

lemma adjweek_obs (now : GTime) (s : RtcmState) (tow : ℚ) :
    (adjweek now s tow).obs = s.obs := rfl

lemma adjday_glot_obs (now : GTime) (s : RtcmState) (tod : ℚ) :
    (adjday_glot now s tod).obs = s.obs := rfl

lemma decode_msm_head_obs (now : GTime) (s : RtcmState) (sys : Int) :
    (decode_msm_head now s sys).state.obs = s.obs := by
  by_cases hlen : 36 + 157 ≤ s.len * 8
  · simp only [decode_msm_head, if_pos hlen]
    split_ifs <;> simp [test_staid_obs, adjweek_obs, adjday_glot_obs]
  · simp only [decode_msm_head, if_neg hlen]

lemma getbitu_one_le (buff : Nat → Nat) (p : Nat) : getbitu buff p 1 ≤ 1 := by
  show getbituGo buff p 1 ≤ 1
  have h := bitOf_le_one buff (p + 0)
  simp only [getbituGo]
  omega

/-- The `ncell` counter equals the number of set bits in the cell mask. -/
lemma msm_cellcount (buff : Nat → Nat) (n : Nat) :
    (((List.range n).map (fun j => getbitu buff (193 + j) 1)).filter
        (fun x => x ≠ 0)).length =
      ((List.range n).filter (fun j => getbitu buff (193 + j) 1 = 1)).length := by
  rw [List.filter_map, List.length_map]
  congr 1
  apply List.filter_congr
  intro j _
  have h := getbitu_one_le buff (193 + j)
  simp only [Function.comp_apply]
  by_cases h0 : getbitu buff (193 + j) 1 = 0
  · simp [h0]
  · have h1 : getbitu buff (193 + j) 1 = 1 := by omega
    simp [h1]

lemma decode_msm_head_ret (now : GTime) (s : RtcmState) (sys : Int) :
    (decode_msm_head now s sys).ret = -1 ∨
    ((decode_msm_head now s sys).ret =
        (((List.range ((msmSats s.buff).length * (msmSigs s.buff).length)).filter
          (fun j => getbitu s.buff (193 + j) 1 = 1)).length : Int) ∧
      (msmSats s.buff).length * (msmSigs s.buff).length ≤ 64) := by
  by_cases hlen : 36 + 157 ≤ s.len * 8
  · simp only [decode_msm_head, if_pos hlen]
    split_ifs <;>
      first
        | exact Or.inl rfl
        | exact Or.inr ⟨congrArg (fun n : Nat => (n : Int)) (msm_cellcount s.buff _),
            by omega⟩
  · simp only [decode_msm_head, if_neg hlen]
    left
    trivial

lemma decode_msm_head_oversize (now : GTime) (s : RtcmState) (sys : Int)
    (hgt : 64 < (msmSats s.buff).length * (msmSigs s.buff).length) :
    (decode_msm_head now s sys).ret = -1 := by
  by_cases hlen : 36 + 157 ≤ s.len * 8
  · simp only [decode_msm_head, if_pos hlen]
    split_ifs <;> first | rfl | exact absurd hgt ‹_›
  · simp only [decode_msm_head, if_neg hlen]

/-- C3: MSM header sanity.  If the satellite mask and signal mask select
`nsat*nsig > 64` cells, `decode_msm_head` returns -1 and the observation
buffer is untouched (no observations are decoded; each of `decode_msm4..7`
returns this -1 immediately).  Whenever it accepts (returns `ncell ≥ 0`),
`nsat*nsig ≤ 64` holds and the returned `ncell` equals the number of set bits
in the `nsat*nsig`-bit cell mask. -/
theorem decode_msm_head_props (now : GTime) (s : RtcmState) (sys : Int) :
    (64 < (msmSats s.buff).length * (msmSigs s.buff).length →
      (decode_msm_head now s sys).ret = -1 ∧
      (decode_msm_head now s sys).state.obs = s.obs) ∧
    (0 ≤ (decode_msm_head now s sys).ret →
      (msmSats s.buff).length * (msmSigs s.buff).length ≤ 64 ∧
      (decode_msm_head now s sys).ret =
        (((List.range ((msmSats s.buff).length * (msmSigs s.buff).length)).filter
          (fun j => getbitu s.buff (193 + j) 1 = 1)).length : Int)) := by
  constructor
  · intro hgt
    exact ⟨decode_msm_head_oversize now s sys hgt, decode_msm_head_obs now s sys⟩
  · intro hge
    rcases decode_msm_head_ret now s sys with h | ⟨h1, h2⟩
    · rw [h] at hge
      omega
    · exact ⟨h2, h1⟩

/-- An MSM frame whose masks select all 64 satellites and 2 signals
(`nsat*nsig = 128 > 64`): bits 97..160 and 161..162 set. -/
def msmOversizeState : RtcmState :=
  { init_rtcm with
      time := ⟨500000000, 0⟩,
      len := 25,
      buff := fun k =>
        if k = 12 then 127 else if 13 ≤ k ∧ k ≤ 19 then 255
        else if k = 20 then 224 else 0 }

/-- An MSM frame selecting one satellite and one signal with its single cell
bit set (`ncell = 1`). -/
def msmSmallState : RtcmState :=
  { init_rtcm with
      time := ⟨500000000, 0⟩,
      len := 25,
      buff := fun k => if k = 12 ∨ k = 20 ∨ k = 24 then 64 else 0 }

/-- C3 witness: the oversized frame is rejected with -1 and leaves the
observation buffer unchanged; the small frame is accepted with `ncell = 1`,
which equals its cell-mask popcount. -/
theorem decode_msm_head_props_witness :
    (decode_msm_head gtime0 msmOversizeState SYS_GPS).ret = -1 ∧
    (decode_msm_head gtime0 msmOversizeState SYS_GPS).state.obs = msmOversizeState.obs ∧
    (decode_msm_head gtime0 msmSmallState SYS_GPS).ret = 1 := by
  refine ⟨((decode_msm_head_props gtime0 msmOversizeState SYS_GPS).1 (by decide)).1,
    ((decode_msm_head_props gtime0 msmOversizeState SYS_GPS).1 (by decide)).2, ?_⟩
  have h := (decode_msm_head_props gtime0 msmSmallState SYS_GPS).2 (by decide)
  rw [h.2]
  decide

/- ## 4.H decode_type1005 / decode_type1006 (part_000 lines 1018-1091) -/

/-- C `getbits_38` (part_000 lines 1019-1022): signed 38-bit field as
`getbits(...,32)*64 + getbitu(...,6)`. -/
def getbits_38 (buff : Nat → Nat) (pos : Nat) : ℚ :=
  (getbits buff pos 32 : ℚ) * 64 + (getbitu buff (pos + 32) 6 : ℚ)

/-- C `decode_type1005`: stationary ARP.  The length gate is the equality
`i+140==rtcm->len*8` with `i=36`, i.e. the frame's header+payload must be
exactly 22 bytes (payload length field 19); any other length is rejected with
-1 and no state change. -/
def decode_type1005 (s : RtcmState) : Int × RtcmState :=
  if 36 + 140 = s.len * 8 then
    let staid := (getbitu s.buff 36 12 : Int)
    let itrf := (getbitu s.buff 48 6 : Int)
    let rr0 := getbits_38 s.buff 58
    let rr1 := getbits_38 s.buff 98
    let rr2 := getbits_38 s.buff 138
    let r := test_staid s staid
    if r.1 then
      (5, { r.2 with sta :=
        { deltype := 0,
          pos0 := rr0 * 0.0001, pos1 := rr1 * 0.0001, pos2 := rr2 * 0.0001,
          del0 := 0, del1 := 0, del2 := 0, hgt := 0, itrf := itrf,
          antsetup := r.2.sta.antsetup } })
    else (-1, r.2)
  else (-1, s)

/-- C `decode_type1006`: ARP with antenna height.  The length gate is the
inequality `i+156<=rtcm->len*8`, so any frame at least 24 bytes of
header+payload is accepted. -/
def decode_type1006 (s : RtcmState) : Int × RtcmState :=
  if 36 + 156 ≤ s.len * 8 then
    let staid := (getbitu s.buff 36 12 : Int)
    let itrf := (getbitu s.buff 48 6 : Int)
    let rr0 := getbits_38 s.buff 58
    let rr1 := getbits_38 s.buff 98
    let rr2 := getbits_38 s.buff 138
    let anth := (getbitu s.buff 176 16 : ℚ)
    let r := test_staid s staid
    if r.1 then
      (5, { r.2 with sta :=
        { deltype := 1,
          pos0 := rr0 * 0.0001, pos1 := rr1 * 0.0001, pos2 := rr2 * 0.0001,
          del0 := 0, del1 := 0, del2 := 0, hgt := anth * 0.0001, itrf := itrf,
          antsetup := r.2.sta.antsetup } })
    else (-1, r.2)
  else (-1, s)

/-- C10: the type-1005 length check is an equality (`36+140 = len*8`, i.e.
`rtcm->len` — header plus payload — exactly 22 bytes): a longer frame is
rejected with -1 and the whole state, in particular the station record, is
unchanged; success is only possible at exactly 22 bytes, where a frame passing
the station-id test returns 5.  `decode_type1006`, by contrast, accepts any
frame at least as long as its required content (`len >= 24`). -/
theorem decode_type1005_length_gate (s s2 : RtcmState) :
    (22 < s.len → decode_type1005 s = (-1, s)) ∧
    ((decode_type1005 s).1 ≠ -1 → s.len = 22) ∧
    (s.len = 22 → (test_staid s (getbitu s.buff 36 12 : Int)).1 = true →
      (decode_type1005 s).1 = 5) ∧
    (24 ≤ s2.len → (test_staid s2 (getbitu s2.buff 36 12 : Int)).1 = true →
      (decode_type1006 s2).1 = 5) := by
  refine ⟨fun hgt => ?_, fun hne => ?_, fun hl hst => ?_, fun hl hst => ?_⟩
  · unfold decode_type1005
    rw [if_neg (by omega)]
  · by_cases h22 : s.len = 22
    · exact h22
    · exfalso
      apply hne
      unfold decode_type1005
      rw [if_neg (by omega)]
  · unfold decode_type1005
    rw [hl]
    rw [if_pos (by norm_num)]
    simp only [hst, if_true]
  · unfold decode_type1006
    rw [if_pos (by omega)]
    simp only [hst, if_true]

/-- C10 witness: a 23-byte 1005 frame is rejected unchanged; a 24-byte 1006
frame from a fresh state (station test passes) is accepted with return 5. -/
theorem decode_type1005_length_gate_witness :
    decode_type1005 { init_rtcm with len := 23 } = (-1, { init_rtcm with len := 23 }) ∧
    (decode_type1006 { init_rtcm with len := 24 }).1 = 5 :=
  ⟨(decode_type1005_length_gate { init_rtcm with len := 23 } init_rtcm).1 (by decide),
   (decode_type1005_length_gate init_rtcm { init_rtcm with len := 24 }).2.2.2
     (by decide) (by decide)⟩

/- ## 4.I decode_type1019 (part_000 lines 1312-1382).
The scale constants below are defined in `rtklib.h`, which is not part of the
source tree; they are modelled from the spec (§4.I scale factors): each
`P2_k` double constant is exactly `2^-k`, and `SC2RAD` is the
semicircle-to-radian factor `3.1415926535898`. -/

def P2_5 : ℚ := 1 / 2 ^ 5
def P2_19 : ℚ := 1 / 2 ^ 19
def P2_29 : ℚ := 1 / 2 ^ 29
def P2_31 : ℚ := 1 / 2 ^ 31
def P2_33 : ℚ := 1 / 2 ^ 33
def P2_43 : ℚ := 1 / 2 ^ 43
def P2_55 : ℚ := 1 / 2 ^ 55
def SC2RAD : ℚ := 3.1415926535898

/-- The ephemeris record assembled by `decode_type1019` from the frame bits
(field positions follow the source's running index `i`, starting at 24+12),
with the week anchored by `adjgpsweek` against the host clock `now`. -/
def eph1019 (now : GTime) (s : RtcmState) (sat : Int) : Eph :=
  let week := adjgpsweek now (getbitu s.buff 42 10 : Int)
  { sat := sat
    iode := (getbitu s.buff 72 8 : Int)
    iodc := (getbitu s.buff 142 10 : Int)
    sva := (getbitu s.buff 52 4 : Int)
    svh := (getbitu s.buff 504 6 : Int)
    week := week
    code := (getbitu s.buff 56 2 : Int)
    flag := (getbitu s.buff 510 1 : Int)
    toe := gpst2time week ((getbitu s.buff 312 16 : ℚ) * 16)
    toc := gpst2time week ((getbitu s.buff 80 16 : ℚ) * 16)
    ttr := s.time
    A := ((getbitu s.buff 280 32 : ℚ) * P2_19) * ((getbitu s.buff 280 32 : ℚ) * P2_19)
    e := (getbitu s.buff 232 32 : ℚ) * P2_33
    i0 := (getbits s.buff 392 32 : ℚ) * P2_31 * SC2RAD
    OMG0 := (getbits s.buff 344 32 : ℚ) * P2_31 * SC2RAD
    omg := (getbits s.buff 440 32 : ℚ) * P2_31 * SC2RAD
    M0 := (getbits s.buff 184 32 : ℚ) * P2_31 * SC2RAD
    deln := (getbits s.buff 168 16 : ℚ) * P2_43 * SC2RAD
    OMGd := (getbits s.buff 472 24 : ℚ) * P2_43 * SC2RAD
    idot := (getbits s.buff 58 14 : ℚ) * P2_43 * SC2RAD
    crc := (getbits s.buff 424 16 : ℚ) * P2_5
    crs := (getbits s.buff 152 16 : ℚ) * P2_5
    cuc := (getbits s.buff 216 16 : ℚ) * P2_29
    cus := (getbits s.buff 264 16 : ℚ) * P2_29
    cic := (getbits s.buff 328 16 : ℚ) * P2_29
    cis := (getbits s.buff 376 16 : ℚ) * P2_29
    toes := (getbitu s.buff 312 16 : ℚ) * 16
    fit := if getbitu s.buff 511 1 ≠ 0 then 0 else 4
    f0 := (getbits s.buff 120 22 : ℚ) * P2_31
    f1 := (getbits s.buff 104 16 : ℚ) * P2_43
    f2 := (getbits s.buff 96 8 : ℚ) * P2_55
    tgd0 := (getbits s.buff 496 8 : ℚ) * P2_31
    tgd1 := 0 }

/-- C `decode_type1019`: GPS ephemeris.  Short frames and out-of-range PRNs
give -1; a PRN at or above 40 is treated as SBAS with offset +80.  Without
`-EPHALL`, a record whose `iode` equals the stored one returns 0 unchanged;
otherwise the navigation slot `sat-1` is replaced, `ephsat` is set, and 2 is
returned. -/
def decode_type1019 (now : GTime) (s : RtcmState) : Int × RtcmState :=
  if 36 + 476 ≤ s.len * 8 then
    let prn0 := getbitu s.buff 36 6
    let sys := if 40 ≤ prn0 then SYS_SBS else SYS_GPS
    let prn : Int := if 40 ≤ prn0 then (prn0 : Int) + 80 else (prn0 : Int)
    let sat := satno sys prn
    if sat = 0 then (-1, s)
    else
      let eph := eph1019 now s sat
      if ¬(hasOpt optEPHALL s.opt = true) ∧ eph.iode = (s.nav (sat - 1).toNat).iode then
        (0, s)
      else
        (2, { s with nav := Function.update s.nav (sat - 1).toNat eph, ephsat := sat })
  else (-1, s)

lemma satno_gps (p : Int) (h1 : 1 ≤ p) (h2 : p ≤ 32) : satno SYS_GPS p = p := by
  simp only [satno, SYS_GPS, MINPRNGPS, MAXPRNGPS]
  rw [if_neg (by omega), if_pos trivial, if_neg (by omega)]
  omega

/-- C2: the `-EPHALL` write policy of `decode_type1019`.  For a sufficiently
long frame carrying an in-range GPS PRN, without the `-EPHALL` option: if the
decoded `iode` (issue of data) equals the one stored for that satellite the
call returns 0 and the state — in particular the stored ephemeris — is
completely unchanged; if it differs, the navigation slot of that satellite is
replaced by the decoded record, `ephsat` is set to the satellite, and 2 is
returned. -/
theorem decode_type1019_ephall_policy (now : GTime) (s : RtcmState)
    (hlen : 64 ≤ s.len)
    (hprn1 : 1 ≤ getbitu s.buff 36 6) (hprn2 : getbitu s.buff 36 6 ≤ 32)
    (hopt : hasOpt optEPHALL s.opt = false) :
    ((getbitu s.buff 72 8 : Int) = (s.nav (getbitu s.buff 36 6 - 1)).iode →
      decode_type1019 now s = (0, s)) ∧
    ((getbitu s.buff 72 8 : Int) ≠ (s.nav (getbitu s.buff 36 6 - 1)).iode →
      decode_type1019 now s =
        (2, { s with
                nav := Function.update s.nav (getbitu s.buff 36 6 - 1)
                  (eph1019 now s (getbitu s.buff 36 6 : Int)),
                ephsat := (getbitu s.buff 36 6 : Int) })) := by
  have hprn40 : ¬(40 ≤ getbitu s.buff 36 6) := by omega
  have hsat : satno (if 40 ≤ getbitu s.buff 36 6 then SYS_SBS else SYS_GPS)
      (if 40 ≤ getbitu s.buff 36 6 then (getbitu s.buff 36 6 : Int) + 80
       else (getbitu s.buff 36 6 : Int)) = (getbitu s.buff 36 6 : Int) := by
    rw [if_neg hprn40, if_neg hprn40]
    exact satno_gps _ (by exact_mod_cast hprn1) (by exact_mod_cast hprn2)
  have hidx : (((getbitu s.buff 36 6 : Nat) : Int) - 1).toNat = getbitu s.buff 36 6 - 1 := by
    omega
  have hiode : (eph1019 now s ((getbitu s.buff 36 6 : Nat) : Int)).iode
      = (getbitu s.buff 72 8 : Int) := rfl
  have hsat0 : ¬(((getbitu s.buff 36 6 : Nat) : Int) = 0) := by
    have : (1 : Int) ≤ ((getbitu s.buff 36 6 : Nat) : Int) := by exact_mod_cast hprn1
    omega
  constructor
  · intro heq
    simp only [decode_type1019, if_pos (show 36 + 476 ≤ s.len * 8 by omega), hsat,
      if_neg hsat0, hidx, hiode]
    rw [if_pos ⟨by rw [hopt]; simp, heq⟩]
  · intro hne
    simp only [decode_type1019, if_pos (show 36 + 476 ≤ s.len * 8 by omega), hsat,
      if_neg hsat0, hidx, hiode]
    rw [if_neg (by intro hcon; exact hne hcon.2)]

/-- A frame state carrying a 1019 message for GPS PRN 7 with `iode = 0`
(fresh against the `init_rtcm` table, whose slots hold `iode = -1`). -/
def eph1019State : RtcmState :=
  { init_rtcm with
      len := 64,
      buff := fun k => if k = 4 then 1 else if k = 5 then 192 else 0 }

/-- C2 witness: decoding the PRN-7 frame updates slot 6 and returns 2; feeding
the identical frame to the resulting state returns 0 and leaves it
unchanged. -/
theorem decode_type1019_ephall_policy_witness :
    decode_type1019 gtime0 eph1019State =
      (2, { eph1019State with
              nav := Function.update eph1019State.nav (getbitu eph1019State.buff 36 6 - 1)
                (eph1019 gtime0 eph1019State (getbitu eph1019State.buff 36 6 : Int)),
              ephsat := (getbitu eph1019State.buff 36 6 : Int) }) ∧
    decode_type1019 gtime0 (decode_type1019 gtime0 eph1019State).2 =
      (0, (decode_type1019 gtime0 eph1019State).2) := by
  have h1 := (decode_type1019_ephall_policy gtime0 eph1019State (by decide) (by decide)
    (by decide) (by decide)).2 (by decide)
  refine ⟨h1, ?_⟩
  have hs2 : (decode_type1019 gtime0 eph1019State).2 =
      { eph1019State with
          nav := Function.update eph1019State.nav (getbitu eph1019State.buff 36 6 - 1)
            (eph1019 gtime0 eph1019State (getbitu eph1019State.buff 36 6 : Int)),
          ephsat := (getbitu eph1019State.buff 36 6 : Int) } :=
    congrArg Prod.snd h1
  rw [hs2]
  exact (decode_type1019_ephall_policy gtime0 _ (by decide) (by decide)
    (by decide) (by decide)).1 (by decide)

/- ## 4.J SSR code-bias tables and decode_ssr3 (part_000 lines 1949-1972, 2067-2117).
The `CODE_Lxx` constants come from `rtklib.h`, which is not in the source
tree; they are modelled from the spec (§4.J): `CODE_Lxx` is the index of the
string "xx" in the `obscodes` table of part_000 (e.g. CODE_L1C = 1, the
first non-empty entry). -/

def CODE_L1C : Nat := 1
def CODE_L1P : Nat := 2
def CODE_L1W : Nat := 3
def CODE_L1Y : Nat := 4
def CODE_L1M : Nat := 5
def CODE_L2C : Nat := 14
def CODE_L2D : Nat := 15
def CODE_L2S : Nat := 16
def CODE_L2L : Nat := 17
def CODE_L2X : Nat := 18
def CODE_L2P : Nat := 19
def CODE_L2W : Nat := 20
def CODE_L2Y : Nat := 21
def CODE_L2M : Nat := 22
def CODE_L5I : Nat := 24
def CODE_L5Q : Nat := 25
def CODE_L5X : Nat := 26

/-- C `codes_gps` (part_000 line 1949): the GPS tracking-mode-id → obs-code
table used by `decode_ssr3`.  It has 17 entries, at indices 0..16. -/
def codes_gps : List Nat :=
  [CODE_L1C, CODE_L1P, CODE_L1W, CODE_L1Y, CODE_L1M, CODE_L2C, CODE_L2D, CODE_L2S,
   CODE_L2L, CODE_L2X, CODE_L2P, CODE_L2W, CODE_L2Y, CODE_L2M, CODE_L5I, CODE_L5Q,
   CODE_L5X]

/-- One iteration of the inner bias loop of `decode_ssr3` (part_000 lines
2095-2102): given the constellation's `codes` table and its advertised entry
count `ncode`, a decoded 5-bit `mode` and the scaled `bias`, the C code does
`if (mode<=ncode) cbias[codes[mode]-1]=bias; else` skip with a warning.
A table access past the end of `codes` is undefined behaviour in C and is
modelled by `none`. -/
def ssr3_bias_step (codes : List Nat) (ncode : Nat) (cbias : Nat → ℚ)
    (mode : Nat) (bias : ℚ) : Option (Nat → ℚ) :=
  if mode ≤ ncode then
    match codes.get? mode with
    | some c => some (Function.update cbias (c - 1) bias)
    | none => none
  else some cbias

/-- C7: the skip guard of `decode_ssr3` is off by one.  For GPS the table
`codes_gps` has 17 entries (valid indices 0..16) and the source sets
`ncode=17`, but the guard is `mode<=ncode`: mode ids 0..16 store a bias,
mode ids ≥ 18 are skipped, while mode id 17 — which has no table entry —
passes the guard and reads `codes[17]`, one element past the end of the
table (undefined behaviour, `none` in the model), instead of being skipped. -/
theorem ssr3_gps_mode17_oob :
    codes_gps.length = 17 ∧
    ssr3_bias_step codes_gps 17 (fun _ => 0) 17 1 = none ∧
    ssr3_bias_step codes_gps 17 (fun _ => 0) 18 1 = some (fun _ => 0) ∧
    ssr3_bias_step codes_gps 17 (fun _ => 0) 16 1 =
      some (Function.update (fun _ => (0 : ℚ)) (CODE_L5X - 1) 1) :=
  ⟨rfl, rfl, rfl, rfl⟩

/- ## 4.D/4.K Signal tables, code priority and signal-index assignment
(part_000 lines 192-217, 621-645, 2249-2285). -/

/-- C `obscodes` (part_000 line 192): observation code strings, indexed by
the `CODE_Lxx` values. -/
def obscodes : List (List Char) :=
  (["", "1C", "1P", "1W", "1Y", "1M", "1N", "1S", "1L", "1E",
    "1A", "1B", "1X", "1Z", "2C", "2D", "2S", "2L", "2X", "2P",
    "2W", "2Y", "2M", "2N", "5I", "5Q", "5X", "7I", "7Q", "7X",
    "6A", "6B", "6C", "6X", "6Z", "6S", "6L", "8L", "8Q", "8X",
    "2I", "2Q", "6I", "6Q", "3I", "3Q", "3X", "1I", "1Q", ""]).map
    (fun s => s.toList)

/-- C `obsfreqs` (part_000 line 200): frequency band of each obs code
(1:L1, 2:L2, 3:L5, 4:L6, 5:L7, 6:L8, 7:L3). -/
def obsfreqs : List Nat :=
  [0, 1, 1, 1, 1, 1, 1, 1, 1, 1,
   1, 1, 1, 1, 2, 2, 2, 2, 2, 2,
   2, 2, 2, 2, 3, 3, 3, 5, 5, 5,
   4, 4, 4, 4, 4, 4, 4, 6, 6, 6,
   2, 2, 4, 4, 3, 3, 3, 1, 1, 0]

/-- C `codepris` (part_000 line 207): per-system per-band default code
priority strings (position 0 → priority 14, position 1 → 13, ...). -/
def codepris : List (List (List Char)) :=
  ([["CPYWMNSL", "PYWCMNDSLX", "IQX", "", "", ""],
    ["PC", "PC", "IQX", "", "", ""],
    ["CABXZ", "", "IQX", "ABCXZ", "IQX", "IQX"],
    ["CSLXZ", "SLX", "IQX", "SLX", "", ""],
    ["C", "", "IQX", "", "", ""],
    ["IQX", "IQX", "IQX", "IQX", "IQX", ""]]).map
    (fun row => row.map (fun s => s.toList))

/-- `MAXCODE` comes from `rtklib.h` (not in the source tree); modelled from
the spec: the number of defined obs codes, 48. -/
def MAXCODE : Nat := 48

/-- C `code2obs` (part_000 line 608): obs code → 2-character code string
(the empty string for an invalid code). -/
def code2obs (code : Nat) : List Char :=
  if code = 0 ∨ MAXCODE < code then [] else obscodes.getD code []

/-- The per-system row index into `codepris` and the system letter of the
option pattern `-?L%2s` used by `getcodepri` (part_000 lines 628-636). -/
def sysIndexOpt (sys : Int) : Option (Nat × Char) :=
  if sys = SYS_GPS then some (0, 'G')
  else if sys = SYS_GLO then some (1, 'R')
  else if sys = SYS_GAL then some (2, 'E')
  else if sys = SYS_QZS then some (3, 'J')
  else if sys = SYS_SBS then some (4, 'S')
  else if sys = SYS_CMP then some (5, 'C')
  else none

/-- The option scan of `getcodepri` (part_000 lines 639-642): for each
occurrence of a dash, `sscanf(p,"-?L%2s",str)` matches the system letter and
an `L`, then reads (after skipping blanks) at most two non-blank characters;
if the first read character equals the band digit of the code, the scan
returns 15 when the second matches the code letter and 0 otherwise. -/
def priOptLoop (sysChar : Char) (obs : List Char) : List Char → Option Int
  | [] => none
  | c :: rest =>
      if c = '-' then
        match rest with
        | c1 :: c2 :: r2 =>
            if c1 = sysChar ∧ c2 = 'L' then
              match ((r2.dropWhile (fun ch => ch == ' ')).takeWhile
                  (fun ch => !(ch == ' '))).take 2 with
              | [] => priOptLoop sysChar obs rest
              | s0 :: stail =>
                  if obs.get? 0 = some s0 then
                    some (if stail.head? = obs.get? 1 then 15 else 0)
                  else priOptLoop sysChar obs rest
            else priOptLoop sysChar obs rest
        | _ => priOptLoop sysChar obs rest
      else priOptLoop sysChar obs rest

/-- C `getcodepri` (part_000 lines 621-645): 15 for a code forced by a
`-?L` option, else `14 - position` in the default priority string, else 0.
For an invalid code the C reads `obs[1]` past the empty string and
`codepris[i][-1]` (undefined behaviour); the model returns 0 there and is
only applied to valid codes. -/
def getcodepri (sys : Int) (code : Nat) (opt : List Char) : Int :=
  match sysIndexOpt sys with
  | none => 0
  | some si =>
      let obs := code2obs code
      let j := obsfreqs.getD code 0
      match priOptLoop si.2 obs opt with
      | some v => v
      | none =>
          match obs.get? 1 with
          | none => 0
          | some a =>
              match ((codepris.getD si.1 []).getD (j - 1) []).findIdx?
                  (fun ch => ch == a) with
              | some k => 14 - (k : Int)
              | none => 0

/-- The state of the first loop of `sigindex` (part_000 lines 2255-2272):
per-band highest priority `pri_h`, per-band 1-based winner index `index`,
and the per-signal extended flag `ex`. -/
structure SigSt where
  priH : Nat → Int
  index : Nat → Nat
  ex : Nat → Bool

def sigSt0 : SigSt := ⟨fun _ => 0, fun _ => 0, fun _ => false⟩

/-- One iteration of the first loop of `sigindex` at signal `i`:
skip empty codes; bands above `nfreq` go extended; otherwise the signal with
the highest code priority per band keeps the band and demotes the previous
winner to extended. -/
def sigStep (sys : Int) (nfreq : Nat) (opt : List Char) (codes freqs : List Nat)
    (st : SigSt) (i : Nat) : SigSt :=
  let code := codes.getD i 0
  let freq := freqs.getD i 0
  if code = 0 then st
  else if nfreq < freq then { st with ex := Function.update st.ex i true }
  else
    let pri := getcodepri sys code opt
    if st.priH (freq - 1) < pri then
      { priH := Function.update st.priH (freq - 1) pri,
        index := Function.update st.index (freq - 1) (i + 1),
        ex := if st.index (freq - 1) ≠ 0
              then Function.update st.ex (st.index (freq - 1) - 1) true
              else st.ex }
    else { st with ex := Function.update st.ex i true }

/-- The first loop of `sigindex` run over signals `0..n-1`. -/
def phase1Go (sys : Int) (nfreq : Nat) (opt : List Char)
    (codes freqs : List Nat) : Nat → SigSt
  | 0 => sigSt0
  | n + 1 => sigStep sys nfreq opt codes freqs
      (phase1Go sys nfreq opt codes freqs n) n

/-- The second loop of `sigindex` (part_000 lines 2274-2284): a signal not
demoted to extended gets the main slot `freq-1`; an extended signal gets
`nfreq + nex` while extended slots remain, else −1. -/
def phase2Go (nfreq nexobs : Nat) (freqs : List Nat) (ex : Nat → Bool) :
    List Nat → Nat → List Int
  | [], _ => []
  | i :: rest, nex =>
      if ex i = false then
        ((freqs.getD i 0 : Int) - 1) :: phase2Go nfreq nexobs freqs ex rest nex
      else if nex < nexobs then
        ((nfreq + nex : Nat) : Int) :: phase2Go nfreq nexobs freqs ex rest (nex + 1)
      else (-1) :: phase2Go nfreq nexobs freqs ex rest nex

/-- C `sigindex` (part_000 lines 2249-2285), parametrised by `nfreq` and
`nexobs`; `NFREQ` and `NEXOBS` come from `rtklib.h`, which is not in the
source tree (the spec fixes NFREQ = 3). -/
def sigindex (sys : Int) (codes freqs : List Nat) (n : Nat) (opt : List Char)
    (nfreq nexobs : Nat) : List Int :=
  phase2Go nfreq nexobs freqs (phase1Go sys nfreq opt codes freqs n).ex
    (List.range n) 0

lemma sigStep_code0 (sys : Int) (nfreq : Nat) (opt : List Char)
    (codes freqs : List Nat) (st : SigSt) (i : Nat)
    (hc : codes.getD i 0 = 0) :
    sigStep sys nfreq opt codes freqs st i = st := by
  simp only [sigStep]
  rw [if_pos hc]

lemma sigStep_exfreq (sys : Int) (nfreq : Nat) (opt : List Char)
    (codes freqs : List Nat) (st : SigSt) (i : Nat)
    (hc : ¬(codes.getD i 0 = 0)) (hf : nfreq < freqs.getD i 0) :
    sigStep sys nfreq opt codes freqs st i
      = { st with ex := Function.update st.ex i true } := by
  simp only [sigStep]
  rw [if_neg hc, if_pos hf]

lemma sigStep_win (sys : Int) (nfreq : Nat) (opt : List Char)
    (codes freqs : List Nat) (st : SigSt) (i : Nat)
    (hc : ¬(codes.getD i 0 = 0)) (hf : ¬(nfreq < freqs.getD i 0))
    (hp : st.priH (freqs.getD i 0 - 1) < getcodepri sys (codes.getD i 0) opt) :
    sigStep sys nfreq opt codes freqs st i
      = { priH := Function.update st.priH (freqs.getD i 0 - 1)
            (getcodepri sys (codes.getD i 0) opt),
          index := Function.update st.index (freqs.getD i 0 - 1) (i + 1),
          ex := if st.index (freqs.getD i 0 - 1) ≠ 0
                then Function.update st.ex (st.index (freqs.getD i 0 - 1) - 1) true
                else st.ex } := by
  simp only [sigStep]
  rw [if_neg hc, if_neg hf, if_pos hp]

lemma sigStep_lose (sys : Int) (nfreq : Nat) (opt : List Char)
    (codes freqs : List Nat) (st : SigSt) (i : Nat)
    (hc : ¬(codes.getD i 0 = 0)) (hf : ¬(nfreq < freqs.getD i 0))
    (hp : ¬(st.priH (freqs.getD i 0 - 1) < getcodepri sys (codes.getD i 0) opt)) :
    sigStep sys nfreq opt codes freqs st i
      = { st with ex := Function.update st.ex i true } := by
  simp only [sigStep]
  rw [if_neg hc, if_neg hf, if_neg hp]

/-- Invariant of the first loop of `sigindex`: winner indices are bounded by
the number of processed signals, unprocessed signals are not extended, and a
processed, non-extended signal with a code and an in-range band is the
recorded winner of its band. -/
lemma phase1_inv (sys : Int) (nfreq : Nat) (opt : List Char)
    (codes freqs : List Nat) (n : Nat) :
    (∀ f, (phase1Go sys nfreq opt codes freqs n).index f ≤ n) ∧
    (∀ i, n ≤ i → (phase1Go sys nfreq opt codes freqs n).ex i = false) ∧
    (∀ i, i < n → codes.getD i 0 ≠ 0 → freqs.getD i 0 ≤ nfreq →
      (phase1Go sys nfreq opt codes freqs n).ex i = false →
      (phase1Go sys nfreq opt codes freqs n).index (freqs.getD i 0 - 1) = i + 1) := by
  induction n with
  | zero =>
    exact ⟨fun f => Nat.le_refl 0, fun i h => rfl,
      fun i h => absurd h (Nat.not_lt_zero i)⟩
  | succ n ih =>
    obtain ⟨hB, hD, hC⟩ := ih
    have hgo : phase1Go sys nfreq opt codes freqs (n + 1)
        = sigStep sys nfreq opt codes freqs (phase1Go sys nfreq opt codes freqs n) n :=
      rfl
    set st := phase1Go sys nfreq opt codes freqs n with hst
    by_cases hc : codes.getD n 0 = 0
    · rw [hgo, sigStep_code0 sys nfreq opt codes freqs st n hc]
      refine ⟨fun f => Nat.le_succ_of_le (hB f), fun i h => hD i (by omega),
        fun i hi hcode hfle hex => ?_⟩
      rcases Nat.lt_succ_iff_lt_or_eq.mp hi with h | h
      · exact hC i h hcode hfle hex
      · subst h; exact absurd hc hcode
    by_cases hf : nfreq < freqs.getD n 0
    · rw [hgo, sigStep_exfreq sys nfreq opt codes freqs st n hc hf]
      refine ⟨fun f => Nat.le_succ_of_le (hB f), fun i h => ?_,
        fun i hi hcode hfle hex => ?_⟩
      · show Function.update st.ex n true i = false
        rw [Function.update_noteq (by omega)]
        exact hD i (by omega)
      · rcases Nat.lt_succ_iff_lt_or_eq.mp hi with h | h
        · have hex2 : Function.update st.ex n true i = false := hex
          rw [Function.update_noteq (by omega)] at hex2
          exact hC i h hcode hfle hex2
        · subst h; exact absurd hfle (by omega)
    by_cases hp : st.priH (freqs.getD n 0 - 1) < getcodepri sys (codes.getD n 0) opt
    · rw [hgo, sigStep_win sys nfreq opt codes freqs st n hc hf hp]
      refine ⟨fun f => ?_, fun i h => ?_, fun i hi hcode hfle hex => ?_⟩
      · show Function.update st.index (freqs.getD n 0 - 1) (n + 1) f ≤ n + 1
        by_cases hfe : f = freqs.getD n 0 - 1
        · rw [hfe, Function.update_same]
        · rw [Function.update_noteq hfe]
          exact Nat.le_succ_of_le (hB f)
      · show (if st.index (freqs.getD n 0 - 1) ≠ 0
            then Function.update st.ex (st.index (freqs.getD n 0 - 1) - 1) true
            else st.ex) i = false
        by_cases hz : st.index (freqs.getD n 0 - 1) = 0
        · have hnn : ¬(st.index (freqs.getD n 0 - 1) ≠ 0) := by omega
          rw [if_neg hnn]
          exact hD i (by omega)
        · rw [if_pos hz]
          have hle := hB (freqs.getD n 0 - 1)
          rw [Function.update_noteq (by omega)]
          exact hD i (by omega)
      · rcases Nat.lt_succ_iff_lt_or_eq.mp hi with h | h
        · have hex2 : (if st.index (freqs.getD n 0 - 1) ≠ 0
              then Function.update st.ex (st.index (freqs.getD n 0 - 1) - 1) true
              else st.ex) i = false := hex
          by_cases hz : st.index (freqs.getD n 0 - 1) = 0
          · have hnn : ¬(st.index (freqs.getD n 0 - 1) ≠ 0) := by omega
            rw [if_neg hnn] at hex2
            have hidx := hC i h hcode hfle hex2
            by_cases hband : freqs.getD i 0 - 1 = freqs.getD n 0 - 1
            · rw [hband, hz] at hidx; omega
            · show Function.update st.index (freqs.getD n 0 - 1) (n + 1)
                  (freqs.getD i 0 - 1) = i + 1
              rw [Function.update_noteq hband]
              exact hidx
          · rw [if_pos hz] at hex2
            by_cases hij : i = st.index (freqs.getD n 0 - 1) - 1
            · rw [hij, Function.update_same] at hex2
              exact absurd hex2 (by simp)
            · rw [Function.update_noteq hij] at hex2
              have hidx := hC i h hcode hfle hex2
              by_cases hband : freqs.getD i 0 - 1 = freqs.getD n 0 - 1
              · rw [hband] at hidx
                omega
              · show Function.update st.index (freqs.getD n 0 - 1) (n + 1)
                    (freqs.getD i 0 - 1) = i + 1
                rw [Function.update_noteq hband]
                exact hidx
        · subst h
          show Function.update st.index (freqs.getD i 0 - 1) (i + 1)
              (freqs.getD i 0 - 1) = i + 1
          exact Function.update_same _ _ _
    · rw [hgo, sigStep_lose sys nfreq opt codes freqs st n hc hf hp]
      refine ⟨fun f => Nat.le_succ_of_le (hB f), fun i h => ?_,
        fun i hi hcode hfle hex => ?_⟩
      · show Function.update st.ex n true i = false
        rw [Function.update_noteq (by omega)]
        exact hD i (by omega)
      · rcases Nat.lt_succ_iff_lt_or_eq.mp hi with h | h
        · have hex2 : Function.update st.ex n true i = false := hex
          rw [Function.update_noteq (by omega)] at hex2
          exact hC i h hcode hfle hex2
        · subst h
          have hex2 : Function.update st.ex i true i = false := hex
          rw [Function.update_same] at hex2
          exact absurd hex2 (by simp)

/-- Reading the second loop of `sigindex`: an entry of value in `[0, nfreq)`
can only come from a non-extended signal, and then equals its band minus
one. -/
lemma phase2_get (nfreq nexobs : Nat) (freqs : List Nat) (ex : Nat → Bool) :
    ∀ (l : List Nat) (nex : Nat) (j i : Nat) (v : Int),
      l.get? j = some i →
      (phase2Go nfreq nexobs freqs ex l nex).get? j = some v →
      0 ≤ v → v < (nfreq : Int) →
      ex i = false ∧ v = (freqs.getD i 0 : Int) - 1 := by
  intro l
  induction l with
  | nil =>
    intro nex j i v h
    simp at h
  | cons a rest ih =>
    intro nex j i v hl hp h0 hn
    cases j with
    | zero =>
      simp only [List.get?] at hl
      have ha : a = i := by injection hl
      subst ha
      by_cases hex : ex a = false
      · refine ⟨hex, ?_⟩
        have heq : phase2Go nfreq nexobs freqs ex (a :: rest) nex
            = ((freqs.getD a 0 : Int) - 1)
              :: phase2Go nfreq nexobs freqs ex rest nex := by
          rw [phase2Go, if_pos hex]
        rw [heq] at hp
        simp only [List.get?] at hp
        injection hp with hp
        omega
      · by_cases hx : nex < nexobs
        · have heq : phase2Go nfreq nexobs freqs ex (a :: rest) nex
              = ((nfreq + nex : Nat) : Int)
                :: phase2Go nfreq nexobs freqs ex rest (nex + 1) := by
            rw [phase2Go, if_neg hex, if_pos hx]
          rw [heq] at hp
          simp only [List.get?] at hp
          injection hp with hp
          have hge : (nfreq : Int) ≤ ((nfreq + nex : Nat) : Int) := by push_cast; omega
          omega
        · have heq : phase2Go nfreq nexobs freqs ex (a :: rest) nex
              = (-1) :: phase2Go nfreq nexobs freqs ex rest nex := by
            rw [phase2Go, if_neg hex, if_neg hx]
          rw [heq] at hp
          simp only [List.get?] at hp
          injection hp with hp
          omega
    | succ j2 =>
      simp only [List.get?] at hl
      by_cases hex : ex a = false
      · have heq : phase2Go nfreq nexobs freqs ex (a :: rest) nex
            = ((freqs.getD a 0 : Int) - 1)
              :: phase2Go nfreq nexobs freqs ex rest nex := by
          rw [phase2Go, if_pos hex]
        rw [heq] at hp
        simp only [List.get?] at hp
        exact ih nex j2 i v hl hp h0 hn
      · by_cases hx : nex < nexobs
        · have heq : phase2Go nfreq nexobs freqs ex (a :: rest) nex
              = ((nfreq + nex : Nat) : Int)
                :: phase2Go nfreq nexobs freqs ex rest (nex + 1) := by
            rw [phase2Go, if_neg hex, if_pos hx]
          rw [heq] at hp
          simp only [List.get?] at hp
          exact ih (nex + 1) j2 i v hl hp h0 hn
        · have heq : phase2Go nfreq nexobs freqs ex (a :: rest) nex
              = (-1) :: phase2Go nfreq nexobs freqs ex rest nex := by
            rw [phase2Go, if_neg hex, if_neg hx]
          rw [heq] at hp
          simp only [List.get?] at hp
          exact ih nex j2 i v hl hp h0 hn

/-- C6: signal-index assignment of `sigindex`.  General part: at most one
signal per frequency band gets a main observation slot — two distinct signals
with non-empty codes whose assigned indices both lie in `[0, nfreq)` get
different slots (hence different bands).  Concrete part: `getcodepri` gives
priority 14 to GPS code 1C (first letter of the default L1 string "CPYWMNSL")
and 11 to 1W (its fourth letter), and on an MSM frame carrying 1C and 1W —
both band L1 — with an empty options string, 1C gets main slot 0 while 1W
gets the extended slot `nfreq = 3`. -/
theorem sigindex_main_slot_unique (sys : Int) (codes freqs : List Nat) (n : Nat)
    (opt : List Char) (nfreq nexobs : Nat) :
    (∀ i1 i2 v1 v2, i1 < n → i2 < n → i1 ≠ i2 →
      codes.getD i1 0 ≠ 0 → codes.getD i2 0 ≠ 0 →
      (sigindex sys codes freqs n opt nfreq nexobs).get? i1 = some v1 →
      (sigindex sys codes freqs n opt nfreq nexobs).get? i2 = some v2 →
      0 ≤ v1 → v1 < (nfreq : Int) → 0 ≤ v2 → v2 < (nfreq : Int) →
      v1 ≠ v2) ∧
    getcodepri SYS_GPS CODE_L1C [] = 14 ∧
    getcodepri SYS_GPS CODE_L1W [] = 11 ∧
    sigindex SYS_GPS [CODE_L1C, CODE_L1W] [1, 1] 2 [] 3 1 = [0, 3] := by
  refine ⟨?_, by decide, by decide, by decide⟩
  intro i1 i2 v1 v2 h1 h2 h12 hc1 hc2 hg1 hg2 h01 hn1 h02 hn2
  obtain ⟨hBnd, hUnp, hWin⟩ := phase1_inv sys nfreq opt codes freqs n
  have hr1 : (List.range n).get? i1 = some i1 := by
    rw [List.get?_range h1]
  have hr2 : (List.range n).get? i2 = some i2 := by
    rw [List.get?_range h2]
  have hp1 := phase2_get nfreq nexobs freqs
    (phase1Go sys nfreq opt codes freqs n).ex (List.range n) 0 i1 i1 v1 hr1 hg1 h01 hn1
  have hp2 := phase2_get nfreq nexobs freqs
    (phase1Go sys nfreq opt codes freqs n).ex (List.range n) 0 i2 i2 v2 hr2 hg2 h02 hn2
  obtain ⟨hex1, hv1⟩ := hp1
  obtain ⟨hex2, hv2⟩ := hp2
  intro hveq
  have hf1 : 1 ≤ freqs.getD i1 0 := by omega
  have hfle1 : freqs.getD i1 0 ≤ nfreq := by omega
  have hf2 : 1 ≤ freqs.getD i2 0 := by omega
  have hfle2 : freqs.getD i2 0 ≤ nfreq := by omega
  have hw1 := hWin i1 h1 hc1 hfle1 hex1
  have hw2 := hWin i2 h2 hc2 hfle2 hex2
  have hband : freqs.getD i1 0 - 1 = freqs.getD i2 0 - 1 := by omega
  rw [hband] at hw1
  omega

/-- C6 witness: on a frame carrying GPS codes 1C (band L1) and 2P (band L2)
both signals win their bands and get main slots 0 and 1, and the claim
theorem applied there separates the two slots. -/
theorem sigindex_main_slot_unique_witness :
    sigindex SYS_GPS [CODE_L1C, CODE_L2P] [1, 2] 2 [] 3 1 = [0, 1] ∧
    (0 : Int) ≠ 1 :=
  ⟨by decide,
   (sigindex_main_slot_unique SYS_GPS [CODE_L1C, CODE_L2P] [1, 2] 2 [] 3 1).1
     0 1 0 1 (by decide) (by decide) (by decide) (by decide) (by decide)
     (by decide) (by decide) (by decide) (by decide) (by decide) (by decide)⟩
